import Mathlib

/-!
# extfilter_exporter: the stats-file translation engine

A shallow embedding of `extfilter_collector.go`.

Modelling conventions.

* A Go `string` is a sequence of bytes. It is modelled by a Lean `String` whose
  characters are the bytes: the character with code `b`, `b < 256`, stands for
  the byte `b`. An ASCII literal of the source denotes itself, `"\xff"` is the
  one-byte string `0xFF` as in Go, and text outside ASCII appears as the bytes of
  its UTF-8 encoding (`"\xc3\xa9"` for U+00E9). `isByteString` says that a
  `String` is such a byte string; the functions are total on every `String`.
* `float64` is an arbitrary type `V`; `strconv.ParseFloat` is a parameter
  `parseFloat : String → Option V` (`none` is a non-nil `err`).
* Sending on the `ch` channel appends to the list `sent` of an `Outcome`.
* A Go run-time panic (index out of range, or the panic of
  `prometheus.MustNewConstMetric`) is recorded in the `status` of the `Outcome`;
  nothing is sent after it.
* The stats file is the list of its lines, the byte strings between the `\n` of
  the file; `none` stands for a failing `os.Open`. The `bufio.Scanner` of
  `Collect` yields them one by one, without a trailing `\r`, and fails on the
  first line of `MaxScanTokenSize` bytes or more.
-/

namespace Extfilter

/-! ## Go standard library: `strings` -/

/-- One pass of `strings.Split` for a one-character separator: the first field
of the input and the list of the fields after it. -/
def splitFields (sep : Char) : List Char → List Char × List (List Char)
  | [] => ([], [])
  | c :: cs =>
    if c = sep then ([], (splitFields sep cs).1 :: (splitFields sep cs).2)
    else (c :: (splitFields sep cs).1, (splitFields sep cs).2)

/-- The fields of `strings.Split(s, sep)` for a one-character separator, the
only kind the collector uses (`"="` and `"."`). The result is never empty. -/
def Split (s : String) (sep : Char) : List String :=
  String.mk (splitFields sep s.data).1 :: (splitFields sep s.data).2.map String.mk

/-- A `String` that stands for a Go string: every character is a byte. -/
def isByteString (s : String) : Prop := ∀ c ∈ s.data, c.toNat < 256

instance (s : String) : Decidable (isByteString s) := by
  unfold isByteString
  infer_instance

/-- The UTF-8 encodings of the runes of `unicode.IsSpace`: `\t`, `\n`, `\v`, `\f`,
`\r`, space, U+0085, U+00A0, U+1680, U+2000 to U+200A, U+2028, U+2029, U+202F,
U+205F and U+3000. -/
def spaceRunes : List (List Char) :=
  [['\t'], ['\n'], ['\x0b'], ['\x0c'], ['\r'], [' '],
   ['\xc2', '\x85'], ['\xc2', '\xa0'],
   ['\xe1', '\x9a', '\x80'],
   ['\xe2', '\x80', '\x80'], ['\xe2', '\x80', '\x81'], ['\xe2', '\x80', '\x82'],
   ['\xe2', '\x80', '\x83'], ['\xe2', '\x80', '\x84'], ['\xe2', '\x80', '\x85'],
   ['\xe2', '\x80', '\x86'], ['\xe2', '\x80', '\x87'], ['\xe2', '\x80', '\x88'],
   ['\xe2', '\x80', '\x89'], ['\xe2', '\x80', '\x8a'],
   ['\xe2', '\x80', '\xa8'], ['\xe2', '\x80', '\xa9'], ['\xe2', '\x80', '\xaf'],
   ['\xe2', '\x81', '\x9f'], ['\xe3', '\x80', '\x80']]

/-- The size in bytes of the code at the head of `s`: the length of the first of
`codes` that is a prefix of `s`, and 0 when none is. With `spaceRunes` it is the
size of the first rune of `s` when `unicode.IsSpace` holds of it: a byte that
starts no valid encoding decodes to `utf8.RuneError`, which is no space. -/
def headSize (codes : List (List Char)) (s : List Char) : Nat :=
  match codes.find? (fun e => e.isPrefixOf s) with
  | some e => e.length
  | none => 0

/-- The string without its leading codes; the first argument counts the bytes of
the current code that are still to drop. With `spaceRunes` it is
`strings.TrimLeftFunc(s, unicode.IsSpace)`. -/
def stripHead (codes : List (List Char)) : Nat → List Char → List Char
  | _, [] => []
  | k + 1, _ :: cs => stripHead codes k cs
  | 0, c :: cs =>
    match headSize codes (c :: cs) with
    | 0 => c :: cs
    | w + 1 => stripHead codes w cs

/-- Go `strings.TrimSpace`: the leading runes of `unicode.IsSpace` are removed,
then the trailing ones, which are read backwards from the end of the string. -/
def TrimSpace (s : String) : String :=
  String.mk (stripHead (spaceRunes.map List.reverse) 0
    (stripHead spaceRunes 0 s.data).reverse).reverse

/-- The scan of `utf8.ValidString`: `pending` continuation bytes are still
expected, the next of them between `lo` and `hi`. -/
def validFrom : Nat → Nat → Nat → List Char → Bool
  | pending, _, _, [] => pending == 0
  | 0, _, _, c :: cs =>
    let b := c.toNat
    if b < 0x80 then validFrom 0 0 0 cs
    else if 0xC2 ≤ b ∧ b ≤ 0xDF then validFrom 1 0x80 0xBF cs
    else if b = 0xE0 then validFrom 2 0xA0 0xBF cs
    else if b = 0xED then validFrom 2 0x80 0x9F cs
    else if 0xE1 ≤ b ∧ b ≤ 0xEF then validFrom 2 0x80 0xBF cs
    else if b = 0xF0 then validFrom 3 0x90 0xBF cs
    else if 0xF1 ≤ b ∧ b ≤ 0xF3 then validFrom 3 0x80 0xBF cs
    else if b = 0xF4 then validFrom 3 0x80 0x8F cs
    else false
  | k + 1, lo, hi, c :: cs =>
    if lo ≤ c.toNat ∧ c.toNat ≤ hi then validFrom k 0x80 0xBF cs else false

/-- Go `utf8.ValidString`: the bytes are a sequence of valid UTF-8 encodings. -/
def ValidString (s : String) : Bool := validFrom 0 0 0 s.data

/-! ## Go standard library: `bufio` -/

/-- Constant `bufio.MaxScanTokenSize`, the size of the largest buffer of a
`Scanner`: a line of that many bytes or more, its `\r` included, does not fit
with its end of line and makes `Scan` fail with `ErrTooLong`. -/
def MaxScanTokenSize : Nat := 64 * 1024

/-- Function `dropCR` of `bufio.ScanLines`: a trailing `\r` is dropped. -/
def dropCR (data : List Char) : List Char :=
  if data.getLast? = some '\r' then data.dropLast else data

/-- Go `strings.TrimPrefix(s, p)`: `s` without the leading `p`, or `s` itself
when it does not start with `p`. -/
def TrimPrefix (s p : String) : String :=
  if p.data.isPrefixOf s.data then String.mk (s.data.drop p.data.length) else s

/-! ## Prometheus client library -/

/-- A `prometheus.Desc`: fully-qualified name, help text, variable label names. -/
structure Desc where
  fqName : String
  help : String
  variableLabels : List String
  deriving DecidableEq, Repr

/-- Value `prometheus.NewDesc(fqName, help, variableLabels, nil)`. -/
def NewDesc (fqName help : String) (variableLabels : List String) : Desc :=
  { fqName := fqName, help := help, variableLabels := variableLabels }

/-- A `prometheus.ValueType`. -/
inductive ValueType where
  | CounterValue
  | GaugeValue
  | UntypedValue
  deriving DecidableEq, Repr

/-- A constant metric: the sample handed to the exposition layer. -/
structure Metric (V : Type) where
  desc : Desc
  valueType : ValueType
  value : V
  labelValues : List String
  deriving DecidableEq, Repr

/-- How a call ended. -/
inductive Status where
  /-- Normal return. -/
  | returned
  /-- Run-time panic: index out of range `[index]` with length `length`. -/
  | indexOutOfRange (index length : Nat)
  /-- The panic of `MustNewConstMetric`: `got` label values for `want` names. -/
  | inconsistentCardinality (want got : Nat)
  /-- The panic of `MustNewConstMetric`: a label value is not valid UTF-8. -/
  | invalidLabelValue
  deriving DecidableEq, Repr

/-- The samples sent on the channel and how the call ended. -/
structure Outcome (V : Type) where
  sent : List (Metric V)
  status : Status
  deriving DecidableEq, Repr

/-- Statement `ch <- prometheus.MustNewConstMetric(desc, valueType, value, labelValues...)`.
The constructor validates the label values: it panics when their number differs
from the number of label names of the descriptor, and when one of them is not
valid UTF-8; otherwise the metric is sent. -/
def sendConstMetric {V : Type} (desc : Desc) (valueType : ValueType) (value : V)
    (labelValues : List String) : Outcome V :=
  if labelValues.length = desc.variableLabels.length then
    if labelValues.all ValidString then
      { sent := [{ desc := desc, valueType := valueType, value := value,
                   labelValues := labelValues }],
        status := Status.returned }
    else
      { sent := [], status := Status.invalidLabelValue }
  else
    { sent := [],
      status := Status.inconsistentCardinality desc.variableLabels.length labelValues.length }

/-! ## The collector -/

/-- Constant `metricsPrefix`. -/
def metricsPrefix : String := "extfilter_"

/-- The collector: the path of the stats file and the ten descriptors. -/
structure extfilterCollector where
  statsPath : String
  workerPackets : Desc
  workerIpPackets : Desc
  workerBytes : Desc
  workerMatched : Desc
  workerFragments : Desc
  workerShortPackets : Desc
  receivedPackets : Desc
  missedPackets : Desc
  inputErrors : Desc
  noBuffer : Desc
  deriving DecidableEq, Repr

/-- Constructor `newExtfilterCollector`. -/
def newExtfilterCollector (statsPath : String) : extfilterCollector :=
  { statsPath := statsPath
    workerPackets := NewDesc (metricsPrefix ++ "worker_packets_total")
      "Total packets processed by the worker" ["core"]
    workerIpPackets := NewDesc (metricsPrefix ++ "ip_packets_total")
      "Total IP packets processed by the worker" ["core", "ip_version"]
    workerBytes := NewDesc (metricsPrefix ++ "bytes_total")
      "Total bytes processed by the worker" ["core"]
    workerMatched := NewDesc (metricsPrefix ++ "matches_total")
      "Total matches by the worker" ["core", "type"]
    workerFragments := NewDesc (metricsPrefix ++ "fragments_total")
      "Total fragments recieved by the worker" ["core", "ip_version"]
    workerShortPackets := NewDesc (metricsPrefix ++ "short_packets")
      "Total short packets processed by the worker" ["core", "ip_version"]
    receivedPackets := NewDesc (metricsPrefix ++ "packets_received_total")
      "Total packets received on all ports" []
    missedPackets := NewDesc (metricsPrefix ++ "packets_missed_total")
      "Total packets missed on all ports" []
    inputErrors := NewDesc (metricsPrefix ++ "input_errors_total")
      "Total input errors encountered on all ports" []
    noBuffer := NewDesc (metricsPrefix ++ "rx_no_buffer_total")
      "Total RX buffer errors encountered on all ports" [] }

/-- Method `Describe`: the descriptors in the order they are sent. -/
def Describe (collector : extfilterCollector) : List Desc :=
  [collector.workerPackets, collector.workerIpPackets, collector.workerBytes,
   collector.workerMatched, collector.workerFragments, collector.workerShortPackets,
   collector.receivedPackets, collector.missedPackets, collector.inputErrors,
   collector.noBuffer]

/-- Function `parseMetric`: `parts[0], parts[1]` of the line split on `=`;
`none` is the index-out-of-range panic of `parts[1]` on a line without `=`. -/
def parseMetric (line : String) : Option (String × String) :=
  match Split line '=' with
  | p0 :: p1 :: _ => some (p0, p1)
  | _ => none

/-- A normal return without a sample. -/
def skip {V : Type} : Outcome V := { sent := [], status := Status.returned }

/-- A panic on `xs[index]`. -/
def outOfRange {V : Type} (index length : Nat) : Outcome V :=
  { sent := [], status := Status.indexOutOfRange index length }

/-- Method `processMetric`. -/
def processMetric {V : Type} (collector : extfilterCollector) (metric : String) (value : V) :
    Outcome V :=
  let metricParts := Split metric '.'
  match metricParts[0]? with
  | none => outOfRange 0 metricParts.length
  | some kind =>
    if kind = "worker" then
      match metricParts[2]? with
      | none => outOfRange 2 metricParts.length
      | some core =>
        match metricParts[3]? with
        | none => outOfRange 3 metricParts.length
        | some name =>
          if name = "total_packets" then
            sendConstMetric collector.workerPackets ValueType.CounterValue value [core]
          else if name = "ip_packets" ∨ name = "ipv4_packets" ∨ name = "ipv6_packets" then
            if name = "ipv4_packets" then
              sendConstMetric collector.workerIpPackets ValueType.CounterValue value [core, "4"]
            else if name = "ipv6_packets" then
              sendConstMetric collector.workerIpPackets ValueType.CounterValue value [core, "6"]
            else if name = "ip_packets" then
              skip
            else
              sendConstMetric collector.workerIpPackets ValueType.CounterValue value [core, ""]
          else if name = "total_bytes" then
            sendConstMetric collector.workerBytes ValueType.CounterValue value [core]
          else if name = "matched_ip_port" ∨ name = "matched_ssl_sni" ∨ name = "matched_ssl_ip"
              ∨ name = "matched_http_bl_ipv4" ∨ name = "matched_http_bl_ipv6" then
            sendConstMetric collector.workerMatched ValueType.CounterValue value
              [core, TrimPrefix name "matched_"]
          else if name = "ipv4_fragments" ∨ name = "ipv6_fragments" then
            if name = "ipv4_fragments" then
              sendConstMetric collector.workerFragments ValueType.CounterValue value [core, "4"]
            else if name = "ipv6_fragments" then
              sendConstMetric collector.workerFragments ValueType.CounterValue value [core, "6"]
            else
              sendConstMetric collector.workerFragments ValueType.CounterValue value [core, ""]
          else if name = "ipv4_short_packets" then
            sendConstMetric collector.workerShortPackets ValueType.CounterValue value [core, "4"]
          else
            skip
    else if kind = "allports" then
      match metricParts[1]? with
      | none => outOfRange 1 metricParts.length
      | some name =>
        if name = "received_packets" then
          sendConstMetric collector.receivedPackets ValueType.CounterValue value []
        else if name = "missed_packets" then
          sendConstMetric collector.missedPackets ValueType.CounterValue value []
        else if name = "ierrors" then
          sendConstMetric collector.inputErrors ValueType.CounterValue value []
        else if name = "rx_nombuf" then
          sendConstMetric collector.noBuffer ValueType.CounterValue value []
        else
          skip
    else if kind = "allworkers" then
      skip
    else
      skip

/-- The scanning loop of `Collect`, over the lines of the file still to read: the
samples sent from here on and how the loop ended. On a line of
`MaxScanTokenSize` bytes or more `scanner.Scan()` fails: the loop ends, the
error of `scanner.Err()` is logged and `Collect` returns. -/
def collectLines {V : Type} (parseFloat : String → Option V) (collector : extfilterCollector) :
    List String → Outcome V
  | [] => skip
  | raw :: rest =>
    if MaxScanTokenSize ≤ raw.length then skip
    else
      let line := TrimSpace (String.mk (dropCR raw.data))
      if line = "" then collectLines parseFloat collector rest
      else
        match parseMetric line with
        | none => outOfRange 1 (Split line '=').length
        | some (metric, valueStr) =>
          match parseFloat valueStr with
          | none => collectLines parseFloat collector rest
          | some value =>
            match processMetric collector metric value with
            | { sent := ms, status := Status.returned } =>
              { sent := ms ++ (collectLines parseFloat collector rest).sent,
                status := (collectLines parseFloat collector rest).status }
            | stopped => stopped

/-- Method `Collect`: `file` is the result of opening `collector.statsPath`,
`none` when the file cannot be opened, else its lines. -/
def Collect {V : Type} (parseFloat : String → Option V) (collector : extfilterCollector)
    (file : Option (List String)) : Outcome V :=
  match file with
  | none => skip
  | some lines => collectLines parseFloat collector lines

/-- A stand-in for `strconv.ParseFloat` on short unsigned decimal integer
literals, used to run the collector on example files: the value of a non-empty
string of digits, and a failure on anything else. -/
def parseDigits (s : String) : Option Nat :=
  if s.data = [] then none
  else s.data.foldl
    (fun acc c => if c.isDigit then acc.map (fun n => 10 * n + (c.toNat - 48)) else none)
    (some 0)

/-- The spec's wording for the value-string: everything after the first
occurrence of the separator (empty when there is none). -/
def afterFirst (sep : Char) : List Char → List Char
  | [] => []
  | c :: cs => if c = sep then cs else afterFirst sep cs

/-- The worker metric names the spec lists as reported. -/
def reportedWorkerNames : List String :=
  ["total_packets", "ipv4_packets", "ipv6_packets", "total_bytes", "matched_ip_port",
   "matched_ssl_sni", "matched_ssl_ip", "matched_http_bl_ipv4", "matched_http_bl_ipv6",
   "ipv4_fragments", "ipv6_fragments", "ipv4_short_packets"]

/-- The allports metric names the spec lists as reported. -/
def reportedAllportsNames : List String :=
  ["received_packets", "missed_packets", "ierrors", "rx_nombuf"]

/-- The spec's wording: the key has enough segments for its category, at least
4 after `worker`, at least 2 after `allports`, any number otherwise. -/
def enoughSegments (parts : List String) : Prop :=
  (parts[0]? = some "worker" → 4 ≤ parts.length) ∧
  (parts[0]? = some "allports" → 2 ≤ parts.length)

instance (parts : List String) : Decidable (enoughSegments parts) := by
  unfold enoughSegments
  infer_instance

/-- The spec's wording: the key is a recognized reporting shape, `worker` with a
reported name as segment 3 or `allports` with a reported name as segment 1. -/
def reportingShape (parts : List String) : Prop :=
  (parts[0]? = some "worker" ∧ ∃ name ∈ reportedWorkerNames, parts[3]? = some name) ∨
  (parts[0]? = some "allports" ∧ ∃ name ∈ reportedAllportsNames, parts[1]? = some name)

instance (parts : List String) : Decidable (reportingShape parts) := by
  unfold reportingShape
  infer_instance

/-- The label value taken from the key is valid UTF-8: segment 2 of a `worker`
key, the core; the other keys carry no label value. -/
def coreValid (parts : List String) : Prop :=
  parts[0]? = some "worker" → (parts[2]?).all ValidString = true

instance (parts : List String) : Decidable (coreValid parts) := by
  unfold coreValid
  infer_instance

/-- A table of codes: no code is empty and none is a prefix of another. -/
def codeTable (codes : List (List Char)) : Prop :=
  (∀ e ∈ codes, e ≠ []) ∧
  (∀ a ∈ codes, ∀ b ∈ codes, a.isPrefixOf b = true → a = b)

/-- No byte after the first of a code is the first byte of a code. -/
def noStraddle (codes : List (List Char)) : Prop :=
  ∀ e ∈ codes, ∀ f ∈ codes, ∀ b ∈ e.tail, f.head? ≠ some b

/-! ## Facts about `Split` -/

theorem splitFields_fst (sep : Char) (l : List Char) :
    (splitFields sep l).1 = l.takeWhile (fun c => c != sep) := by
  induction l with
  | nil => rfl
  | cons c cs ih =>
    by_cases h : c = sep
    · simp [splitFields, h]
    · simp [splitFields, h, ih]

theorem splitFields_snd (sep : Char) (l : List Char) (h : sep ∈ l) :
    (splitFields sep l).2 =
      (splitFields sep (afterFirst sep l)).1 :: (splitFields sep (afterFirst sep l)).2 := by
  induction l with
  | nil => simp at h
  | cons c cs ih =>
    by_cases hc : c = sep
    · simp [splitFields, afterFirst, hc]
    · have hmem : sep ∈ cs := by
        rcases List.mem_cons.mp h with h1 | h1
        · exact absurd h1.symm hc
        · exact h1
      simp [splitFields, afterFirst, hc, ih hmem]

theorem splitFields_snd_of_not_mem (sep : Char) (l : List Char) (h : sep ∉ l) :
    (splitFields sep l).2 = [] := by
  induction l with
  | nil => rfl
  | cons c cs ih =>
    have hc : ¬ c = sep := fun e => h (by simp [e])
    have hcs : sep ∉ cs := fun e => h (List.mem_cons_of_mem _ e)
    simp [splitFields, hc, ih hcs]

theorem Split_length_of_not_mem (s : String) (sep : Char) (h : sep ∉ s.data) :
    (Split s sep).length = 1 := by
  simp [Split, splitFields_snd_of_not_mem sep s.data h]

theorem parseMetric_of_not_mem (line : String) (h : '=' ∉ line.data) :
    parseMetric line = none := by
  simp [parseMetric, Split, splitFields_snd_of_not_mem '=' line.data h]

theorem parseMetric_of_mem (line : String) (h : '=' ∈ line.data) :
    parseMetric line =
      some (String.mk (line.data.takeWhile (fun c => c != '=')),
            String.mk ((afterFirst '=' line.data).takeWhile (fun c => c != '='))) := by
  simp [parseMetric, Split, splitFields_snd '=' line.data h, splitFields_fst]

theorem takeWhile_ne_of_not_mem (sep : Char) (l : List Char) (h : sep ∉ l) :
    l.takeWhile (fun c => c != sep) = l := by
  induction l with
  | nil => rfl
  | cons c cs ih =>
    have hc : ¬ c = sep := fun e => h (by simp [e])
    have hcs : sep ∉ cs := fun e => h (List.mem_cons_of_mem _ e)
    simp [List.takeWhile_cons, hc, ih hcs]

theorem takeWhile_ne_append_sep_isPrefix (sep : Char) (l : List Char) (h : sep ∈ l) :
    l.takeWhile (fun c => c != sep) ++ [sep] <+: l := by
  induction l with
  | nil => simp at h
  | cons c cs ih =>
    by_cases hc : c = sep
    · subst hc
      simp [List.takeWhile_cons]
    · have hmem : sep ∈ cs := by
        rcases List.mem_cons.mp h with h1 | h1
        · exact absurd h1.symm hc
        · exact h1
      simpa [List.takeWhile_cons, hc] using ih hmem

/-! ## Facts about `TrimSpace` -/

theorem spaceRunes_codeTable : codeTable spaceRunes := by
  constructor <;> decide

theorem spaceRunes_reverse_codeTable : codeTable (spaceRunes.map List.reverse) := by
  constructor <;> decide

theorem spaceRunes_noStraddle : noStraddle spaceRunes := by
  unfold noStraddle
  decide

theorem stripHead_drop (codes : List (List Char)) (k : Nat) (l : List Char) :
    stripHead codes k l = stripHead codes 0 (l.drop k) := by
  induction l generalizing k with
  | nil => simp [stripHead]
  | cons c cs ih =>
    cases k with
    | zero => rfl
    | succ k => simpa [stripHead] using ih k

theorem stripHead_of_headSize_zero (codes : List (List Char)) (l : List Char)
    (h : headSize codes l = 0) : stripHead codes 0 l = l := by
  cases l with
  | nil => rfl
  | cons c cs => simp [stripHead, h]

theorem stripHead_of_headSize (codes : List (List Char)) (l : List Char) :
    stripHead codes 0 l = if headSize codes l = 0 then l
      else stripHead codes 0 (l.drop (headSize codes l)) := by
  cases l with
  | nil => simp [stripHead]
  | cons c cs =>
    cases hw : headSize codes (c :: cs) with
    | zero => simp [stripHead, hw]
    | succ w =>
      simp only [stripHead, hw]
      rw [stripHead_drop]
      simp

theorem headSize_code_append (codes : List (List Char)) (hc : codeTable codes)
    (e x : List Char) (he : e ∈ codes) : headSize codes (e ++ x) = e.length := by
  unfold headSize
  cases hf : codes.find? (fun a => a.isPrefixOf (e ++ x)) with
  | none =>
    have := List.find?_eq_none.mp hf e he
    simp at this
  | some a =>
    have ha : a ∈ codes := List.mem_of_find?_eq_some hf
    have hpa : a <+: e ++ x := by
      have := List.find?_some hf
      simpa [List.isPrefixOf_iff_prefix] using this
    have hpe : e <+: e ++ x := List.prefix_append e x
    rcases Nat.le_total a.length e.length with hle | hle
    · have : a <+: e := List.prefix_of_prefix_length_le hpa hpe hle
      have hae : a = e := hc.2 a ha e he (by simpa [List.isPrefixOf_iff_prefix] using this)
      simp [hae]
    · have : e <+: a := List.prefix_of_prefix_length_le hpe hpa hle
      have hae : e = a := hc.2 e he a ha (by simpa [List.isPrefixOf_iff_prefix] using this)
      simp [hae]

theorem stripHead_code_append (codes : List (List Char)) (hc : codeTable codes)
    (e x : List Char) (he : e ∈ codes) :
    stripHead codes 0 (e ++ x) = stripHead codes 0 x := by
  have hne : e ≠ [] := hc.1 e he
  rw [stripHead_of_headSize codes (e ++ x), headSize_code_append codes hc e x he]
  have hlen : e.length ≠ 0 := fun h => hne (List.length_eq_zero.mp h)
  simp [hlen]

theorem stripHead_join_append (codes : List (List Char)) (hc : codeTable codes)
    (ws : List (List Char)) (x : List Char) (hws : ∀ e ∈ ws, e ∈ codes) :
    stripHead codes 0 (ws.flatten ++ x) = stripHead codes 0 x := by
  induction ws with
  | nil => simp
  | cons e ws ih =>
    have he : e ∈ codes := hws e (by simp)
    have hrest : ∀ a ∈ ws, a ∈ codes := fun a ha => hws a (List.mem_cons_of_mem _ ha)
    rw [List.flatten_cons, List.append_assoc, stripHead_code_append codes hc e _ he]
    exact ih hrest

theorem headSize_eq_zero_iff (codes : List (List Char)) (l : List Char)
    (hc : ∀ e ∈ codes, e ≠ []) :
    headSize codes l = 0 ↔ ∀ e ∈ codes, ¬ e <+: l := by
  unfold headSize
  cases hf : codes.find? (fun a => a.isPrefixOf l) with
  | none =>
    have := List.find?_eq_none.mp hf
    simp only [true_iff]
    intro e he hp
    exact this e he (by simpa [List.isPrefixOf_iff_prefix] using hp)
  | some a =>
    have ha : a ∈ codes := List.mem_of_find?_eq_some hf
    have hpa : a <+: l := by
      have := List.find?_some hf
      simpa [List.isPrefixOf_iff_prefix] using this
    have hlen : a.length ≠ 0 := fun h => hc a ha (List.length_eq_zero.mp h)
    simp only [hlen, false_iff]
    intro hall
    exact hall a ha hpa

theorem headSize_pos_split (codes : List (List Char)) (l : List Char)
    (h : headSize codes l ≠ 0) :
    ∃ e ∈ codes, ∃ x, l = e ++ x ∧ headSize codes l = e.length := by
  unfold headSize at h ⊢
  cases hf : codes.find? (fun a => a.isPrefixOf l) with
  | none => simp [hf] at h
  | some a =>
    have ha : a ∈ codes := List.mem_of_find?_eq_some hf
    have hpa : a <+: l := by
      have := List.find?_some hf
      simpa [List.isPrefixOf_iff_prefix] using this
    obtain ⟨x, hx⟩ := hpa
    exact ⟨a, ha, x, hx.symm, rfl⟩

theorem stripHead_decompose (codes : List (List Char)) (hc : codeTable codes) :
    ∀ (n : Nat) (l : List Char), l.length ≤ n →
      ∃ (ws : List (List Char)) (r : List Char), (∀ e ∈ ws, e ∈ codes) ∧ l = ws.flatten ++ r ∧
        stripHead codes 0 l = r ∧ headSize codes r = 0 := by
  intro n
  induction n with
  | zero =>
    intro l hl
    have hnil : l = [] := List.length_eq_zero.mp (Nat.le_zero.mp hl)
    subst hnil
    refine ⟨[], [], by simp, by simp, rfl, ?_⟩
    exact (headSize_eq_zero_iff codes [] hc.1).mpr (fun e he hp =>
      hc.1 e he (List.prefix_nil.mp hp))
  | succ n ih =>
    intro l hl
    by_cases h0 : headSize codes l = 0
    · exact ⟨[], l, by simp, by simp, stripHead_of_headSize_zero codes l h0, h0⟩
    · obtain ⟨e, he, x, hx, _⟩ := headSize_pos_split codes l h0
      have hne : e ≠ [] := hc.1 e he
      have hpos : 0 < e.length := List.length_pos.mpr hne
      have hxlen : x.length ≤ n := by
        have : l.length = e.length + x.length := by rw [hx, List.length_append]
        omega
      obtain ⟨ws, r, hws, hdec, hstrip, hr⟩ := ih x hxlen
      refine ⟨e :: ws, r, ?_, ?_, ?_, hr⟩
      · intro a ha
        rcases List.mem_cons.mp ha with h1 | h1
        · exact h1 ▸ he
        · exact hws a h1
      · rw [hx, hdec, List.flatten_cons, List.append_assoc]
      · rw [hx, stripHead_code_append codes hc e x he, hstrip]

theorem headSize_append_of_zero (codes : List (List Char)) (hc : codeTable codes)
    (hs : noStraddle codes) (r post : List Char) (hr : headSize codes r = 0) (hne : r ≠ [])
    (hpost : post = [] ∨ ∃ f ∈ codes, ∃ u, post = f ++ u) :
    headSize codes (r ++ post) = 0 := by
  rcases hpost with rfl | ⟨f, hf, u, rfl⟩
  · simpa using hr
  · rw [headSize_eq_zero_iff codes _ hc.1]
    intro e he hp
    have hnot := (headSize_eq_zero_iff codes r hc.1).mp hr e he
    have hpr : r <+: r ++ (f ++ u) := List.prefix_append r _
    rcases Nat.le_total e.length r.length with hle | hle
    · exact hnot (List.prefix_of_prefix_length_le hp hpr hle)
    · have hre : r <+: e := List.prefix_of_prefix_length_le hpr hp hle
      obtain ⟨t, ht⟩ := hre
      obtain ⟨v, hv⟩ := hp
      have htail : f ++ u = t ++ v := by
        have : r ++ (t ++ v) = r ++ (f ++ u) := by rw [← List.append_assoc, ht, hv]
        exact (List.append_cancel_left this).symm
      have hfne : f ≠ [] := hc.1 f hf
      cases t with
      | nil =>
        apply hnot
        rw [← ht]
        simp
      | cons b t =>
        cases f with
        | nil => exact hfne rfl
        | cons f0 f =>
          have hb : f0 = b := by
            simp only [List.cons_append] at htail
            exact (List.cons.inj htail).1
          cases r with
          | nil => exact hne rfl
          | cons r0 r =>
            have hmem : b ∈ e.tail := by
              rw [← ht]
              simp
            exact hs e he (f0 :: f) hf b hmem (by simp [hb])

theorem stripHead_reverse_flatten_append (codes : List (List Char))
    (hc : codeTable (codes.map List.reverse)) (ws : List (List Char)) (x : List Char)
    (hws : ∀ e ∈ ws, e ∈ codes) :
    stripHead (codes.map List.reverse) 0 (ws.flatten.reverse ++ x) =
      stripHead (codes.map List.reverse) 0 x := by
  induction ws generalizing x with
  | nil => simp
  | cons e ws ih =>
    have he : e.reverse ∈ codes.map List.reverse := List.mem_map_of_mem _ (hws e (by simp))
    have hrest : ∀ a ∈ ws, a ∈ codes := fun a ha => hws a (List.mem_cons_of_mem _ ha)
    rw [List.flatten_cons, List.reverse_append, List.append_assoc, ih (e.reverse ++ x) hrest,
      stripHead_code_append _ hc e.reverse x he]

theorem TrimSpace_of_spaces (ws : List (List Char)) (hws : ∀ e ∈ ws, e ∈ spaceRunes) :
    TrimSpace (String.mk ws.flatten) = "" := by
  have h := stripHead_join_append spaceRunes spaceRunes_codeTable ws [] hws
  simp only [List.append_nil] at h
  simp only [TrimSpace, h]
  rfl

theorem TrimSpace_padded (s : String) (wpre wpost : List (List Char))
    (hpre : ∀ e ∈ wpre, e ∈ spaceRunes) (hpost : ∀ e ∈ wpost, e ∈ spaceRunes) :
    TrimSpace (String.mk (wpre.flatten ++ s.data ++ wpost.flatten)) = TrimSpace s := by
  obtain ⟨ws, r, hws, hdec, hstrip, hr⟩ :=
    stripHead_decompose spaceRunes spaceRunes_codeTable s.data.length s.data (Nat.le_refl _)
  have hleft : stripHead spaceRunes 0 (wpre.flatten ++ s.data ++ wpost.flatten) =
      stripHead spaceRunes 0 (r ++ wpost.flatten) := by
    rw [List.append_assoc, stripHead_join_append spaceRunes spaceRunes_codeTable wpre _ hpre]
    conv_lhs => rw [hdec]
    rw [List.append_assoc, stripHead_join_append spaceRunes spaceRunes_codeTable ws _ hws]
  simp only [TrimSpace, hleft, hstrip]
  by_cases hnil : r = []
  · subst hnil
    have h := stripHead_join_append spaceRunes spaceRunes_codeTable wpost [] hpost
    simp only [List.append_nil] at h
    simp [h, stripHead]
  · have hpostform : wpost.flatten = [] ∨ ∃ f ∈ spaceRunes, ∃ u, wpost.flatten = f ++ u := by
      cases wpost with
      | nil => exact Or.inl rfl
      | cons f w => exact Or.inr ⟨f, hpost f (by simp), w.flatten, by simp⟩
    have h0 := headSize_append_of_zero spaceRunes spaceRunes_codeTable spaceRunes_noStraddle
      r wpost.flatten hr hnil hpostform
    rw [stripHead_of_headSize_zero spaceRunes _ h0, List.reverse_append,
      stripHead_reverse_flatten_append spaceRunes spaceRunes_reverse_codeTable wpost _ hpost]

theorem dropCR_cases (data : List Char) :
    dropCR data = data ∨ data = dropCR data ++ ['\r'] := by
  unfold dropCR
  by_cases h : data.getLast? = some '\r'
  · right
    simp only [h, if_true]
    exact (List.dropLast_append_getLast? '\r' (by simp [h])).symm
  · left
    simp [h]

theorem TrimSpace_dropCR (s : String) : TrimSpace (String.mk (dropCR s.data)) = TrimSpace s := by
  rcases dropCR_cases s.data with h | h
  · rw [h]
  · have hp := TrimSpace_padded (String.mk (dropCR s.data)) [] [['\r']] (by simp) (by decide)
    have hs : s = String.mk ([].flatten ++ (String.mk (dropCR s.data)).data ++ [['\r']].flatten) := by
      cases s
      simp only [List.flatten_nil, List.nil_append, List.flatten_cons, List.append_nil]
      exact congrArg String.mk h
    rw [← hp, ← hs]

theorem flatten_replicate_singleton (n : Nat) (c : Char) :
    (List.replicate n [c]).flatten = List.replicate n c := by
  induction n with
  | zero => rfl
  | succ n ih => simp [List.replicate_succ, ih]

theorem TrimSpace_append_blanks (s : String) (n : Nat) :
    TrimSpace (String.mk (s.data ++ List.replicate n ' ')) = TrimSpace s := by
  have h := TrimSpace_padded s [] (List.replicate n [' ']) (by simp)
    (fun e he => by
      rw [List.eq_of_mem_replicate he]
      decide)
  simpa [flatten_replicate_singleton] using h

theorem length_append_blanks (s : String) (n : Nat) :
    (String.mk (s.data ++ List.replicate n ' ')).length = s.length + n := by
  show (s.data ++ List.replicate n ' ').length = s.data.length + n
  rw [List.length_append, List.length_replicate]

/-! ## Facts about the scanning loop -/

section Loop

variable {V : Type}

theorem collectLines_too_long (parseFloat : String → Option V) (collector : extfilterCollector)
    (text : String) (rest : List String) (hlen : MaxScanTokenSize ≤ text.length) :
    collectLines parseFloat collector (text :: rest) = skip := by
  simp [collectLines, hlen]

theorem collectLines_blank (parseFloat : String → Option V) (collector : extfilterCollector)
    (text : String) (rest : List String) (hlen : text.length < MaxScanTokenSize)
    (h : TrimSpace text = "") :
    collectLines parseFloat collector (text :: rest) = collectLines parseFloat collector rest := by
  simp [collectLines, Nat.not_le.mpr hlen, TrimSpace_dropCR, h]

theorem collectLines_no_separator (parseFloat : String → Option V)
    (collector : extfilterCollector) (text : String) (rest : List String)
    (hlen : text.length < MaxScanTokenSize)
    (h : TrimSpace text ≠ "") (hsep : '=' ∉ (TrimSpace text).data) :
    collectLines parseFloat collector (text :: rest) = outOfRange 1 1 := by
  simp [collectLines, Nat.not_le.mpr hlen, TrimSpace_dropCR, h, parseMetric_of_not_mem _ hsep,
    Split_length_of_not_mem _ _ hsep]

theorem collectLines_bad_value (parseFloat : String → Option V) (collector : extfilterCollector)
    (text key valueStr : String) (rest : List String)
    (hlen : text.length < MaxScanTokenSize)
    (hline : parseMetric (TrimSpace text) = some (key, valueStr))
    (hbad : parseFloat valueStr = none) :
    collectLines parseFloat collector (text :: rest) = collectLines parseFloat collector rest := by
  by_cases h : TrimSpace text = ""
  · exact collectLines_blank parseFloat collector text rest hlen h
  · simp [collectLines, Nat.not_le.mpr hlen, TrimSpace_dropCR, h, hline, hbad]

theorem collectLines_append_congr (parseFloat : String → Option V)
    (collector : extfilterCollector) (front tail1 tail2 : List String)
    (h : collectLines parseFloat collector tail1 = collectLines parseFloat collector tail2) :
    collectLines parseFloat collector (front ++ tail1) =
      collectLines parseFloat collector (front ++ tail2) := by
  induction front with
  | nil => simpa using h
  | cons text front ih =>
    rw [List.cons_append, List.cons_append, collectLines, collectLines, ih]

theorem collectLines_congr_head (parseFloat : String → Option V)
    (collector : extfilterCollector) (a b : String) (rest : List String)
    (ha : a.length < MaxScanTokenSize) (hb : b.length < MaxScanTokenSize)
    (h : TrimSpace a = TrimSpace b) :
    collectLines parseFloat collector (a :: rest) =
      collectLines parseFloat collector (b :: rest) := by
  rw [collectLines, collectLines]
  simp only [Nat.not_le.mpr ha, Nat.not_le.mpr hb, if_false, TrimSpace_dropCR, h]

theorem collectLines_append_of_returned (parseFloat : String → Option V)
    (collector : extfilterCollector) (l1 l2 : List String)
    (hshort : ∀ t ∈ l1, t.length < MaxScanTokenSize)
    (h : (collectLines parseFloat collector l1).status = Status.returned) :
    collectLines parseFloat collector (l1 ++ l2) =
      { sent := (collectLines parseFloat collector l1).sent ++
                (collectLines parseFloat collector l2).sent,
        status := (collectLines parseFloat collector l2).status } := by
  induction l1 with
  | nil => simp [collectLines, skip]
  | cons text rest ih =>
    have hlen : text.length < MaxScanTokenSize := hshort text (by simp)
    have hrest : ∀ t ∈ rest, t.length < MaxScanTokenSize :=
      fun t ht => hshort t (List.mem_cons_of_mem _ ht)
    have hnl : ¬ MaxScanTokenSize ≤ text.length := Nat.not_le.mpr hlen
    rw [List.cons_append]
    by_cases hb : TrimSpace text = ""
    · rw [collectLines_blank parseFloat collector text rest hlen hb] at h
      rw [collectLines_blank parseFloat collector text (rest ++ l2) hlen hb,
        collectLines_blank parseFloat collector text rest hlen hb]
      exact ih hrest h
    · cases hpm : parseMetric (TrimSpace text) with
      | none => simp [collectLines, hnl, TrimSpace_dropCR, hb, hpm, outOfRange] at h
      | some kv =>
        obtain ⟨key, valueStr⟩ := kv
        cases hpf : parseFloat valueStr with
        | none =>
          rw [collectLines_bad_value parseFloat collector text key valueStr rest hlen hpm hpf] at h
          rw [collectLines_bad_value parseFloat collector text key valueStr (rest ++ l2) hlen
              hpm hpf,
            collectLines_bad_value parseFloat collector text key valueStr rest hlen hpm hpf]
          exact ih hrest h
        | some value =>
          cases hproc : processMetric collector key value with
          | mk ms st =>
            cases st with
            | returned =>
              simp only [collectLines, hnl, TrimSpace_dropCR, hb, hpm, hpf, hproc, if_false]
                at h ⊢
              simp [ih hrest h]
            | indexOutOfRange i n =>
              simp [collectLines, hnl, TrimSpace_dropCR, hb, hpm, hpf, hproc] at h
            | inconsistentCardinality w g =>
              simp [collectLines, hnl, TrimSpace_dropCR, hb, hpm, hpf, hproc] at h
            | invalidLabelValue =>
              simp [collectLines, hnl, TrimSpace_dropCR, hb, hpm, hpf, hproc] at h

theorem collectLines_append_of_stopped (parseFloat : String → Option V)
    (collector : extfilterCollector) (l1 l2 : List String)
    (h : (collectLines parseFloat collector l1).status ≠ Status.returned) :
    collectLines parseFloat collector (l1 ++ l2) = collectLines parseFloat collector l1 := by
  induction l1 with
  | nil => simp [collectLines, skip] at h
  | cons text rest ih =>
    rw [List.cons_append]
    by_cases hlong : MaxScanTokenSize ≤ text.length
    · rw [collectLines_too_long parseFloat collector text _ hlong,
        collectLines_too_long parseFloat collector text _ hlong]
    · have hlen : text.length < MaxScanTokenSize := Nat.not_le.mp hlong
      by_cases hb : TrimSpace text = ""
      · rw [collectLines_blank parseFloat collector text rest hlen hb] at h
        rw [collectLines_blank parseFloat collector text (rest ++ l2) hlen hb,
          collectLines_blank parseFloat collector text rest hlen hb]
        exact ih h
      · cases hpm : parseMetric (TrimSpace text) with
        | none => simp [collectLines, hlong, TrimSpace_dropCR, hb, hpm]
        | some kv =>
          obtain ⟨key, valueStr⟩ := kv
          cases hpf : parseFloat valueStr with
          | none =>
            rw [collectLines_bad_value parseFloat collector text key valueStr rest hlen hpm hpf]
              at h
            rw [collectLines_bad_value parseFloat collector text key valueStr (rest ++ l2) hlen
                hpm hpf,
              collectLines_bad_value parseFloat collector text key valueStr rest hlen hpm hpf]
            exact ih h
          | some value =>
            cases hproc : processMetric collector key value with
            | mk ms st =>
              cases st with
              | returned =>
                simp only [collectLines, hlong, TrimSpace_dropCR, hb, hpm, hpf, hproc, if_false]
                  at h ⊢
                simp [ih h]
              | indexOutOfRange i n =>
                simp [collectLines, hlong, TrimSpace_dropCR, hb, hpm, hpf, hproc]
              | inconsistentCardinality w g =>
                simp [collectLines, hlong, TrimSpace_dropCR, hb, hpm, hpf, hproc]
              | invalidLabelValue =>
                simp [collectLines, hlong, TrimSpace_dropCR, hb, hpm, hpf, hproc]

theorem collectLines_append_of_too_long (parseFloat : String → Option V)
    (collector : extfilterCollector) (l1 l2 : List String)
    (h : ∃ t ∈ l1, MaxScanTokenSize ≤ t.length) :
    collectLines parseFloat collector (l1 ++ l2) = collectLines parseFloat collector l1 := by
  induction l1 with
  | nil => simp at h
  | cons text rest ih =>
    rw [List.cons_append]
    by_cases hlong : MaxScanTokenSize ≤ text.length
    · rw [collectLines_too_long parseFloat collector text _ hlong,
        collectLines_too_long parseFloat collector text _ hlong]
    · have hrest : ∃ t ∈ rest, MaxScanTokenSize ≤ t.length := by
        obtain ⟨t, ht, htl⟩ := h
        rcases List.mem_cons.mp ht with h1 | h1
        · exact absurd (h1 ▸ htl) hlong
        · exact ⟨t, h1, htl⟩
      rw [collectLines, collectLines, ih hrest]

end Loop

/-! ## Facts about the label values -/

theorem ValidString_ip_version : ValidString "4" = true ∧ ValidString "6" = true := by
  decide

theorem ValidString_match_type :
    ValidString (TrimPrefix "matched_ip_port" "matched_") = true ∧
    ValidString (TrimPrefix "matched_ssl_sni" "matched_") = true ∧
    ValidString (TrimPrefix "matched_ssl_ip" "matched_") = true ∧
    ValidString (TrimPrefix "matched_http_bl_ipv4" "matched_") = true ∧
    ValidString (TrimPrefix "matched_http_bl_ipv6" "matched_") = true := by
  decide

/-! ## The claims -/

section Claims

variable {V : Type}

/-- C1 (defect of the code): `Collect` does not complete on every stats file. When
a line that the scanner yields (shorter than `MaxScanTokenSize`) is non-blank
after trimming and contains no `=`, `parseMetric` indexes `parts[1]` of a
one-element slice: the scrape ends in an index-out-of-range panic, whatever the
lines after it are. -/
theorem Collect_panics_on_line_without_separator (parseFloat : String → Option V)
    (collector : extfilterCollector) (text : String) (rest : List String)
    (hlen : text.length < MaxScanTokenSize)
    (h : TrimSpace text ≠ "") (hsep : '=' ∉ (TrimSpace text).data) :
    Collect parseFloat collector (some (text :: rest)) =
      { sent := [], status := Status.indexOutOfRange 1 1 } := by
  simpa [Collect, outOfRange] using
    collectLines_no_separator parseFloat collector text rest hlen h hsep

/-- Witness for C1: the file made of the line `bogus` and a well-formed line. -/
theorem Collect_panics_on_line_without_separator_witness :
    "bogus".length < MaxScanTokenSize ∧
    TrimSpace "bogus" ≠ "" ∧ '=' ∉ (TrimSpace "bogus").data ∧
    Collect parseDigits (newExtfilterCollector "stats")
        (some ["bogus", "allports.ierrors=5"]) =
      { sent := [], status := Status.indexOutOfRange 1 1 } :=
  ⟨by decide, by decide, by decide,
   Collect_panics_on_line_without_separator parseDigits (newExtfilterCollector "stats")
     "bogus" ["allports.ierrors=5"] (by decide) (by decide) (by decide)⟩

/-- C2 (defect of the code): a key with too few segments is not skipped. For a
`worker` key with fewer than 4 segments and for an `allports` key with fewer
than 2, `processMetric` sends nothing and ends in an index-out-of-range panic
on the first missing segment it reads. -/
theorem processMetric_panics_on_short_key (collector : extfilterCollector) (metric : String)
    (value : V)
    (h : ((Split metric '.')[0]? = some "worker" ∧ (Split metric '.').length < 4) ∨
         ((Split metric '.')[0]? = some "allports" ∧ (Split metric '.').length < 2)) :
    ∃ index, (Split metric '.').length ≤ index ∧
      processMetric collector metric value =
        { sent := [], status := Status.indexOutOfRange index (Split metric '.').length } := by
  simp only [processMetric]
  generalize Split metric '.' = parts at h ⊢
  rcases parts with _ | ⟨p, _ | ⟨q, _ | ⟨r, _ | ⟨t, rest⟩⟩⟩⟩
  · simp at h
  · rcases h with ⟨h0, _⟩ | ⟨h0, _⟩
    · exact ⟨2, by simp, by simp_all [outOfRange]⟩
    · refine ⟨1, by simp, ?_⟩
      have hp : p = "allports" := by simpa using h0
      subst hp
      simp [outOfRange]
  · rcases h with ⟨h0, _⟩ | ⟨_, hlen⟩
    · exact ⟨2, by simp, by simp_all [outOfRange]⟩
    · simp at hlen
  · rcases h with ⟨h0, _⟩ | ⟨_, hlen⟩
    · exact ⟨3, by simp, by simp_all [outOfRange]⟩
    · simp at hlen
  · rcases h with ⟨_, hlen⟩ | ⟨_, hlen⟩
    · simp only [List.length_cons] at hlen
      omega
    · simp only [List.length_cons] at hlen
      omega

/-- Witness for C2: the three-segment key `worker.0.3` panics on `metricParts[3]`,
and the bare key `allports` panics on `metricParts[1]`. -/
theorem processMetric_panics_on_short_key_witness :
    ((Split "worker.0.3" '.')[0]? = some "worker" ∧ (Split "worker.0.3" '.').length < 4) ∧
    (∃ index, (Split "worker.0.3" '.').length ≤ index ∧
      processMetric (newExtfilterCollector "stats") "worker.0.3" (1 : Nat) =
        { sent := [],
          status := Status.indexOutOfRange index (Split "worker.0.3" '.').length }) ∧
    processMetric (newExtfilterCollector "stats") "worker.0.3" (1 : Nat) =
      { sent := [], status := Status.indexOutOfRange 3 3 } ∧
    processMetric (newExtfilterCollector "stats") "allports" (1 : Nat) =
      { sent := [], status := Status.indexOutOfRange 1 1 } :=
  ⟨⟨by decide, by decide⟩,
   processMetric_panics_on_short_key (newExtfilterCollector "stats") "worker.0.3" 1
    (Or.inl ⟨by decide, by decide⟩),
   by decide, by decide⟩

/-- C4 (counterexample): on the line `k=1=2` the value-string returned by
`parseMetric` is `1`, not `1=2`, the text after the first `=`. -/
theorem parseMetric_value_counterexample :
    '=' ∈ "k=1=2".data ∧
    parseMetric "k=1=2" = some ("k", "1") ∧
    String.mk (afterFirst '=' "k=1=2".data) = "1=2" ∧
    (parseMetric "k=1=2").map Prod.snd ≠ some (String.mk (afterFirst '=' "k=1=2".data)) := by
  decide

/-- C4 (amended): for every line that contains at least one `=`, `parseMetric`
returns a pair, and its value-string is the text after the first `=` up to, and
not including, the next `=` (or the end of the line): it contains no `=`, and
it is everything after the first `=` exactly when the line has no second `=`. -/
theorem parseMetric_value_is_second_field (line : String) (h : '=' ∈ line.data) :
    ∃ key valueStr, parseMetric line = some (key, valueStr) ∧
      valueStr.data = (afterFirst '=' line.data).takeWhile (fun c => c != '=') ∧
      '=' ∉ valueStr.data ∧
      (valueStr.data = afterFirst '=' line.data ↔ '=' ∉ afterFirst '=' line.data) := by
  refine ⟨_, _, parseMetric_of_mem line h, rfl, ?_, ?_⟩
  · intro hmem
    have := List.mem_takeWhile_imp hmem
    simp at this
  · constructor
    · intro heq hmem
      rw [← heq] at hmem
      have := List.mem_takeWhile_imp hmem
      simp at this
    · intro hnot
      exact takeWhile_ne_of_not_mem '=' _ hnot

/-- Witness for C4 (amended): the line `k=1=2`, whose value-string is `1`. -/
theorem parseMetric_value_is_second_field_witness :
    '=' ∈ "k=1=2".data ∧
    ∃ key valueStr, parseMetric "k=1=2" = some (key, valueStr) ∧
      valueStr.data = (afterFirst '=' "k=1=2".data).takeWhile (fun c => c != '=') ∧
      '=' ∉ valueStr.data ∧
      (valueStr.data = afterFirst '=' "k=1=2".data ↔ '=' ∉ afterFirst '=' "k=1=2".data) :=
  ⟨by decide, parseMetric_value_is_second_field "k=1=2" (by decide)⟩

/-- C5 (counterexample): the line `allports.ierrors=abc` followed by 65536 spaces
has the value-string `abc`, which does not parse, but it is too long for the
scanner: `Collect` stops there and the sample of the next line is lost. -/
theorem Collect_unparsable_long_line_counterexample :
    parseMetric (TrimSpace (String.mk ("allports.ierrors=abc".data ++
        List.replicate 65536 ' '))) = some ("allports.ierrors", "abc") ∧
    parseDigits "abc" = none ∧
    Collect parseDigits (newExtfilterCollector "stats")
        (some ([] ++ [String.mk ("allports.ierrors=abc".data ++ List.replicate 65536 ' ')] ++
          ["allports.ierrors=5"])) =
      { sent := [], status := Status.returned } ∧
    Collect parseDigits (newExtfilterCollector "stats") (some ([] ++ ["allports.ierrors=5"])) =
      { sent := [{ desc := (newExtfilterCollector "stats").inputErrors,
                   valueType := ValueType.CounterValue, value := 5, labelValues := [] }],
        status := Status.returned } := by
  refine ⟨?_, by decide, ?_, by decide⟩
  · rw [TrimSpace_append_blanks]
    decide
  · have hlen : MaxScanTokenSize ≤
        (String.mk ("allports.ierrors=abc".data ++ List.replicate 65536 ' ')).length := by
      rw [length_append_blanks]
      decide
    simp only [Collect, List.nil_append, List.singleton_append]
    rw [collectLines_too_long parseDigits _ _ _ hlen]
    rfl

/-- C5 (amended): a line shorter than `MaxScanTokenSize` (65536 bytes) whose
value-string (the one `parseMetric` returns for the trimmed line) does not parse
as a number contributes no sample and does not affect the other lines:
`Collect` on `l1 ++ [bad] ++ l2` has the outcome of `Collect` on `l1 ++ l2`, the
same samples in the same order and the same ending. -/
theorem Collect_skips_unparsable_value (parseFloat : String → Option V)
    (collector : extfilterCollector) (l1 l2 : List String) (bad key valueStr : String)
    (hlen : bad.length < MaxScanTokenSize)
    (hline : parseMetric (TrimSpace bad) = some (key, valueStr))
    (hbad : parseFloat valueStr = none) :
    Collect parseFloat collector (some (l1 ++ [bad] ++ l2)) =
      Collect parseFloat collector (some (l1 ++ l2)) := by
  simp only [Collect, List.append_assoc, List.singleton_append]
  exact collectLines_append_congr parseFloat collector l1 (bad :: l2) l2
    (collectLines_bad_value parseFloat collector bad key valueStr l2 hlen hline hbad)

/-- Witness for C5: `worker.0.3.total_packets=abc` followed by a well-formed line
still yields the sample of the well-formed line. -/
theorem Collect_skips_unparsable_value_witness :
    "worker.0.3.total_packets=abc".length < MaxScanTokenSize ∧
    parseMetric (TrimSpace "worker.0.3.total_packets=abc") =
      some ("worker.0.3.total_packets", "abc") ∧
    parseDigits "abc" = none ∧
    Collect parseDigits (newExtfilterCollector "stats")
        (some ([] ++ ["worker.0.3.total_packets=abc"] ++ ["allports.received_packets=1000"])) =
      Collect parseDigits (newExtfilterCollector "stats")
        (some ([] ++ ["allports.received_packets=1000"])) ∧
    Collect parseDigits (newExtfilterCollector "stats")
        (some ["worker.0.3.total_packets=abc", "allports.received_packets=1000"]) =
      { sent := [{ desc := (newExtfilterCollector "stats").receivedPackets,
                   valueType := ValueType.CounterValue, value := 1000, labelValues := [] }],
        status := Status.returned } :=
  ⟨by decide, by decide, by decide,
   Collect_skips_unparsable_value parseDigits (newExtfilterCollector "stats") []
     ["allports.received_packets=1000"] "worker.0.3.total_packets=abc"
     "worker.0.3.total_packets" "abc" (by decide) (by decide) (by decide),
   by decide⟩

/-- C3 (counterexample): the key `worker.0.\xff.total_packets` has four segments
and a reported name, but its core is the byte `0xFF`, which is not valid UTF-8:
`MustNewConstMetric` panics and no sample is sent. -/
theorem processMetric_reporting_counterexample :
    isByteString "worker.0.\xff.total_packets" ∧
    enoughSegments (Split "worker.0.\xff.total_packets" '.') ∧
    reportingShape (Split "worker.0.\xff.total_packets" '.') ∧
    processMetric (newExtfilterCollector "stats") "worker.0.\xff.total_packets" (1 : Nat) =
      { sent := [], status := Status.invalidLabelValue } := by
  decide

/-- C3 (amended): for every key with enough segments for its category and every
value: when the key is a recognized reporting shape and its core is valid UTF-8,
`processMetric` returns normally and sends exactly one sample; when the key is
not a recognized reporting shape, it returns normally and sends none; and it
never sends more than one sample. -/
theorem processMetric_one_sample_iff_reporting (statsPath metric : String) (value : V)
    (h : enoughSegments (Split metric '.')) :
    (reportingShape (Split metric '.') → coreValid (Split metric '.') →
      (processMetric (newExtfilterCollector statsPath) metric value).status = Status.returned ∧
      (processMetric (newExtfilterCollector statsPath) metric value).sent.length = 1) ∧
    (¬ reportingShape (Split metric '.') →
      (processMetric (newExtfilterCollector statsPath) metric value).status = Status.returned ∧
      (processMetric (newExtfilterCollector statsPath) metric value).sent = []) ∧
    (processMetric (newExtfilterCollector statsPath) metric value).sent.length ≤ 1 := by
  have hv4 := ValidString_ip_version.1
  have hv6 := ValidString_ip_version.2
  obtain ⟨hm1, hm2, hm3, hm4, hm5⟩ := ValidString_match_type
  simp only [processMetric]
  obtain ⟨p, ps, hps⟩ : ∃ p ps, Split metric '.' = p :: ps := ⟨_, _, rfl⟩
  rw [hps] at h ⊢
  by_cases hw : p = "worker"
  · subst hw
    rcases ps with _ | ⟨q, _ | ⟨r, _ | ⟨name, rest⟩⟩⟩
    · simp [enoughSegments] at h
    · simp [enoughSegments] at h
    · simp [enoughSegments] at h
    · clear h
      by_cases hm : name ∈ "ip_packets" :: reportedWorkerNames
      · simp only [reportedWorkerNames, List.mem_cons, List.mem_singleton, List.not_mem_nil,
          or_false] at hm
        by_cases hv : ValidString r = true
        · rcases hm with rfl | rfl | rfl | rfl | rfl | rfl | rfl | rfl | rfl | rfl | rfl | rfl
              | rfl <;>
            simp [reportingShape, reportedWorkerNames, coreValid, sendConstMetric,
              newExtfilterCollector, NewDesc, skip, hv, hv4, hv6, hm1, hm2, hm3, hm4, hm5]
        · rcases hm with rfl | rfl | rfl | rfl | rfl | rfl | rfl | rfl | rfl | rfl | rfl | rfl
              | rfl <;>
            simp [reportingShape, reportedWorkerNames, coreValid, sendConstMetric,
              newExtfilterCollector, NewDesc, skip, hv]
      · simp [reportedWorkerNames] at hm
        simp [reportingShape, reportedWorkerNames, skip, hm]
  · by_cases ha : p = "allports"
    · subst ha
      rcases ps with _ | ⟨name, rest⟩
      · simp [enoughSegments] at h
      · clear h
        by_cases hm : name ∈ reportedAllportsNames
        · simp only [reportedAllportsNames, List.mem_cons, List.mem_singleton, List.not_mem_nil,
            or_false] at hm
          rcases hm with rfl | rfl | rfl | rfl <;>
            simp [reportingShape, reportedAllportsNames, sendConstMetric, newExtfilterCollector,
              NewDesc, skip]
        · simp [reportedAllportsNames] at hm
          simp [reportingShape, reportedAllportsNames, skip, hm]
    · simp [hw, ha, reportingShape, skip]

/-- Witness for C3: `worker.0.3.total_packets` sends one sample; the keys
`worker.0.3.unknown_name`, `worker.0.3.ipv6_short_packets`, `worker.0.3.ip_packets`,
`allports.bogus`, `allworkers.total_packets` and `cpu.load` send none. -/
theorem processMetric_one_sample_iff_reporting_witness :
    enoughSegments (Split "worker.0.3.total_packets" '.') ∧
    reportingShape (Split "worker.0.3.total_packets" '.') ∧
    coreValid (Split "worker.0.3.total_packets" '.') ∧
    ((reportingShape (Split "worker.0.3.total_packets" '.') →
        coreValid (Split "worker.0.3.total_packets" '.') →
        (processMetric (newExtfilterCollector "stats") "worker.0.3.total_packets"
          (42 : Nat)).status = Status.returned ∧
        (processMetric (newExtfilterCollector "stats") "worker.0.3.total_packets"
          (42 : Nat)).sent.length = 1) ∧
      (¬ reportingShape (Split "worker.0.3.total_packets" '.') →
        (processMetric (newExtfilterCollector "stats") "worker.0.3.total_packets"
          (42 : Nat)).status = Status.returned ∧
        (processMetric (newExtfilterCollector "stats") "worker.0.3.total_packets"
          (42 : Nat)).sent = []) ∧
      (processMetric (newExtfilterCollector "stats") "worker.0.3.total_packets"
        (42 : Nat)).sent.length ≤ 1) ∧
    (processMetric (newExtfilterCollector "stats") "worker.0.3.total_packets"
      (42 : Nat)).sent.length = 1 ∧
    (∀ key ∈ ["worker.0.3.unknown_name", "worker.0.3.ipv6_short_packets",
        "worker.0.3.ip_packets", "allports.bogus", "allworkers.total_packets", "cpu.load",
        "worker.0.\xff.unknown_name"],
      enoughSegments (Split key '.') ∧ ¬ reportingShape (Split key '.') ∧
      processMetric (newExtfilterCollector "stats") key (1 : Nat) =
        { sent := [], status := Status.returned }) :=
  ⟨by decide, by decide, by decide,
   processMetric_one_sample_iff_reporting "stats" "worker.0.3.total_packets" 42 (by decide),
   by decide, by decide⟩

/-- C6 (counterexample): the key `worker.0.\xff.total_packets` has the segments of the
claim, but its core is the byte `0xFF`, which is not valid UTF-8:
`MustNewConstMetric` panics and no sample is sent. -/
theorem processMetric_total_packets_counterexample :
    isByteString "worker.0.\xff.total_packets" ∧
    Split "worker.0.\xff.total_packets" '.' =
      "worker" :: "0" :: "\xff" :: "total_packets" :: [] ∧
    processMetric (newExtfilterCollector "stats") "worker.0.\xff.total_packets" (1 : Nat) =
      { sent := [], status := Status.invalidLabelValue } := by
  decide

/-- C6 (amended): for every key whose segments are `worker`, id, core,
`total_packets` and any further ones, with a core that is valid UTF-8, and every
value, `processMetric` sends exactly one sample: descriptor
`extfilter_worker_packets_total`, label values `[core]`, that value. -/
theorem processMetric_total_packets (statsPath metric id core : String) (rest : List String)
    (value : V) (h : Split metric '.' = "worker" :: id :: core :: "total_packets" :: rest)
    (hcore : ValidString core = true) :
    processMetric (newExtfilterCollector statsPath) metric value =
      { sent := [{ desc := (newExtfilterCollector statsPath).workerPackets,
                   valueType := ValueType.CounterValue, value := value,
                   labelValues := [core] }],
        status := Status.returned } ∧
    (newExtfilterCollector statsPath).workerPackets.fqName = "extfilter_worker_packets_total" := by
  refine ⟨?_, rfl⟩
  simp [processMetric, h, sendConstMetric, newExtfilterCollector, NewDesc, hcore]

/-- Witness for C6: the line `worker.0.3.total_packets=42` gives core `3`, value 42. -/
theorem processMetric_total_packets_witness :
    Split "worker.0.3.total_packets" '.' = "worker" :: "0" :: "3" :: "total_packets" :: [] ∧
    ValidString "3" = true ∧
    (processMetric (newExtfilterCollector "stats") "worker.0.3.total_packets" (42 : Nat) =
      { sent := [{ desc := (newExtfilterCollector "stats").workerPackets,
                   valueType := ValueType.CounterValue, value := 42,
                   labelValues := ["3"] }],
        status := Status.returned } ∧
     (newExtfilterCollector "stats").workerPackets.fqName = "extfilter_worker_packets_total") ∧
    Collect parseDigits (newExtfilterCollector "stats") (some ["worker.0.3.total_packets=42"]) =
      { sent := [{ desc := NewDesc "extfilter_worker_packets_total"
                             "Total packets processed by the worker" ["core"],
                   valueType := ValueType.CounterValue, value := 42,
                   labelValues := ["3"] }],
        status := Status.returned } :=
  ⟨by decide, by decide,
   processMetric_total_packets "stats" "worker.0.3.total_packets" "0" "3" [] 42 (by decide)
     (by decide),
   by decide⟩

/-- C7 (counterexample): the key `worker.0.\xc3.ipv6_packets` has the segments of the
claim, but its core is the lone byte `0xC3`, a truncated encoding, which is not
valid UTF-8: `MustNewConstMetric` panics and no sample is sent. -/
theorem processMetric_ip_version_packets_counterexample :
    isByteString "worker.0.\xc3.ipv6_packets" ∧
    Split "worker.0.\xc3.ipv6_packets" '.' =
      "worker" :: "0" :: "\xc3" :: "ipv6_packets" :: [] ∧
    processMetric (newExtfilterCollector "stats") "worker.0.\xc3.ipv6_packets" (1 : Nat) =
      { sent := [], status := Status.invalidLabelValue } := by
  decide

/-- C7 (amended): for every worker key with at least 4 segments whose segment 3
is `ipv4_packets` or `ipv6_packets` and whose core is valid UTF-8, and every
value, `processMetric` sends exactly one sample: descriptor
`extfilter_ip_packets_total`, label values `[core, "4"]` for `ipv4_packets` and
`[core, "6"]` for `ipv6_packets`, that value. -/
theorem processMetric_ip_version_packets (statsPath metric id core name : String)
    (rest : List String) (value : V)
    (h : Split metric '.' = "worker" :: id :: core :: name :: rest)
    (hname : name = "ipv4_packets" ∨ name = "ipv6_packets")
    (hcore : ValidString core = true) :
    processMetric (newExtfilterCollector statsPath) metric value =
      { sent := [{ desc := (newExtfilterCollector statsPath).workerIpPackets,
                   valueType := ValueType.CounterValue, value := value,
                   labelValues := [core, if name = "ipv4_packets" then "4" else "6"] }],
        status := Status.returned } ∧
    (newExtfilterCollector statsPath).workerIpPackets.fqName = "extfilter_ip_packets_total" := by
  refine ⟨?_, rfl⟩
  rcases hname with rfl | rfl <;>
    simp [processMetric, h, sendConstMetric, newExtfilterCollector, NewDesc, hcore,
      ValidString_ip_version.1, ValidString_ip_version.2]

/-- Witness for C7: the line `worker.0.3.ipv6_packets=7` gives core `3`,
ip_version `6`, value 7. -/
theorem processMetric_ip_version_packets_witness :
    Split "worker.0.3.ipv6_packets" '.' = "worker" :: "0" :: "3" :: "ipv6_packets" :: [] ∧
    ValidString "3" = true ∧
    (processMetric (newExtfilterCollector "stats") "worker.0.3.ipv6_packets" (7 : Nat) =
      { sent := [{ desc := (newExtfilterCollector "stats").workerIpPackets,
                   valueType := ValueType.CounterValue, value := 7,
                   labelValues := ["3", if "ipv6_packets" = "ipv4_packets" then "4" else "6"] }],
        status := Status.returned } ∧
     (newExtfilterCollector "stats").workerIpPackets.fqName = "extfilter_ip_packets_total") ∧
    Collect parseDigits (newExtfilterCollector "stats") (some ["worker.0.3.ipv6_packets=7"]) =
      { sent := [{ desc := NewDesc "extfilter_ip_packets_total"
                             "Total IP packets processed by the worker" ["core", "ip_version"],
                   valueType := ValueType.CounterValue, value := 7,
                   labelValues := ["3", "6"] }],
        status := Status.returned } :=
  ⟨by decide, by decide,
   processMetric_ip_version_packets "stats" "worker.0.3.ipv6_packets" "0" "3" "ipv6_packets"
     [] 7 (by decide) (Or.inr rfl) (by decide),
   by decide⟩

/-- C8: for every worker key with at least 4 segments whose segment 3 is
`ip_packets`, and every value, `processMetric` returns normally and sends no
sample, for any collector. -/
theorem processMetric_ip_packets_dropped (collector : extfilterCollector)
    (metric id core : String) (rest : List String) (value : V)
    (h : Split metric '.' = "worker" :: id :: core :: "ip_packets" :: rest) :
    processMetric collector metric value = { sent := [], status := Status.returned } := by
  simp [processMetric, h, skip]

/-- Witness for C8: the key `worker.0.3.ip_packets` with value 99. -/
theorem processMetric_ip_packets_dropped_witness :
    Split "worker.0.3.ip_packets" '.' = "worker" :: "0" :: "3" :: "ip_packets" :: [] ∧
    processMetric (newExtfilterCollector "stats") "worker.0.3.ip_packets" (99 : Nat) =
      { sent := [], status := Status.returned } :=
  ⟨by decide,
   processMetric_ip_packets_dropped (newExtfilterCollector "stats") "worker.0.3.ip_packets"
     "0" "3" [] 99 (by decide)⟩

/-- C9 (counterexample): the key `worker.0.\xc0\x80.matched_ssl_sni` has the segments
of the claim, but its core is the bytes `0xC0 0x80`, an overlong encoding, which
is not valid UTF-8: `MustNewConstMetric` panics and no sample is sent. -/
theorem processMetric_matched_counterexample :
    isByteString "worker.0.\xc0\x80.matched_ssl_sni" ∧
    Split "worker.0.\xc0\x80.matched_ssl_sni" '.' =
      "worker" :: "0" :: "\xc0\x80" :: "matched_ssl_sni" :: [] ∧
    processMetric (newExtfilterCollector "stats") "worker.0.\xc0\x80.matched_ssl_sni" (1 : Nat) =
      { sent := [], status := Status.invalidLabelValue } := by
  decide

/-- C9 (amended): for every worker key with at least 4 segments whose segment 3
is one of the five `matched_` names and whose core is valid UTF-8, and every
value, `processMetric` sends exactly one sample: descriptor
`extfilter_matches_total`, label values `[core, t]` where `"matched_" ++ t` is
segment 3 and `t` is one of `ip_port`, `ssl_sni`, `ssl_ip`, `http_bl_ipv4`,
`http_bl_ipv6`, that value. -/
theorem processMetric_matched (statsPath metric id core name : String) (rest : List String)
    (value : V) (h : Split metric '.' = "worker" :: id :: core :: name :: rest)
    (hname : name ∈ ["matched_ip_port", "matched_ssl_sni", "matched_ssl_ip",
      "matched_http_bl_ipv4", "matched_http_bl_ipv6"])
    (hcore : ValidString core = true) :
    ∃ t, "matched_" ++ t = name ∧
      t ∈ ["ip_port", "ssl_sni", "ssl_ip", "http_bl_ipv4", "http_bl_ipv6"] ∧
      processMetric (newExtfilterCollector statsPath) metric value =
        { sent := [{ desc := (newExtfilterCollector statsPath).workerMatched,
                     valueType := ValueType.CounterValue, value := value,
                     labelValues := [core, t] }],
          status := Status.returned } ∧
      (newExtfilterCollector statsPath).workerMatched.fqName = "extfilter_matches_total" := by
  simp only [List.mem_cons, List.mem_singleton, List.not_mem_nil, or_false] at hname
  rcases hname with rfl | rfl | rfl | rfl | rfl
  · refine ⟨"ip_port", by decide, by decide, ?_, rfl⟩
    have ht : TrimPrefix "matched_ip_port" "matched_" = "ip_port" := by decide
    have hv : ValidString "ip_port" = true := by decide
    simp [processMetric, h, sendConstMetric, newExtfilterCollector, NewDesc, ht, hv, hcore]
  · refine ⟨"ssl_sni", by decide, by decide, ?_, rfl⟩
    have ht : TrimPrefix "matched_ssl_sni" "matched_" = "ssl_sni" := by decide
    have hv : ValidString "ssl_sni" = true := by decide
    simp [processMetric, h, sendConstMetric, newExtfilterCollector, NewDesc, ht, hv, hcore]
  · refine ⟨"ssl_ip", by decide, by decide, ?_, rfl⟩
    have ht : TrimPrefix "matched_ssl_ip" "matched_" = "ssl_ip" := by decide
    have hv : ValidString "ssl_ip" = true := by decide
    simp [processMetric, h, sendConstMetric, newExtfilterCollector, NewDesc, ht, hv, hcore]
  · refine ⟨"http_bl_ipv4", by decide, by decide, ?_, rfl⟩
    have ht : TrimPrefix "matched_http_bl_ipv4" "matched_" = "http_bl_ipv4" := by decide
    have hv : ValidString "http_bl_ipv4" = true := by decide
    simp [processMetric, h, sendConstMetric, newExtfilterCollector, NewDesc, ht, hv, hcore]
  · refine ⟨"http_bl_ipv6", by decide, by decide, ?_, rfl⟩
    have ht : TrimPrefix "matched_http_bl_ipv6" "matched_" = "http_bl_ipv6" := by decide
    have hv : ValidString "http_bl_ipv6" = true := by decide
    simp [processMetric, h, sendConstMetric, newExtfilterCollector, NewDesc, ht, hv, hcore]

/-- Witness for C9: the key `worker.0.3.matched_ssl_sni` gives type `ssl_sni`. -/
theorem processMetric_matched_witness :
    Split "worker.0.3.matched_ssl_sni" '.' =
      "worker" :: "0" :: "3" :: "matched_ssl_sni" :: [] ∧
    ValidString "3" = true ∧
    (∃ t, "matched_" ++ t = "matched_ssl_sni" ∧
      t ∈ ["ip_port", "ssl_sni", "ssl_ip", "http_bl_ipv4", "http_bl_ipv6"] ∧
      processMetric (newExtfilterCollector "stats") "worker.0.3.matched_ssl_sni" (5 : Nat) =
        { sent := [{ desc := (newExtfilterCollector "stats").workerMatched,
                     valueType := ValueType.CounterValue, value := 5,
                     labelValues := ["3", t] }],
          status := Status.returned } ∧
      (newExtfilterCollector "stats").workerMatched.fqName = "extfilter_matches_total") ∧
    processMetric (newExtfilterCollector "stats") "worker.0.3.matched_ssl_sni" (5 : Nat) =
      { sent := [{ desc := NewDesc "extfilter_matches_total" "Total matches by the worker"
                             ["core", "type"],
                   valueType := ValueType.CounterValue, value := 5,
                   labelValues := ["3", "ssl_sni"] }],
        status := Status.returned } :=
  ⟨by decide, by decide,
   processMetric_matched "stats" "worker.0.3.matched_ssl_sni" "0" "3" "matched_ssl_sni" [] 5
     (by decide) (by decide) (by decide),
   by decide⟩

/-- C10 (counterexample): the key `worker.0.\xed\xa0\x80.ipv4_fragments` has the
segments of the claim, but its core is the bytes `0xED 0xA0 0x80`, an encoded
surrogate, which is not valid UTF-8: `MustNewConstMetric` panics and no sample is
sent. -/
theorem processMetric_fragments_counterexample :
    isByteString "worker.0.\xed\xa0\x80.ipv4_fragments" ∧
    Split "worker.0.\xed\xa0\x80.ipv4_fragments" '.' =
      "worker" :: "0" :: "\xed\xa0\x80" :: "ipv4_fragments" :: [] ∧
    processMetric (newExtfilterCollector "stats") "worker.0.\xed\xa0\x80.ipv4_fragments" (1 : Nat) =
      { sent := [], status := Status.invalidLabelValue } := by
  decide

/-- C10 (amended): for every worker key with at least 4 segments whose segment 3
is `ipv4_fragments` or `ipv6_fragments` and whose core is valid UTF-8, and every
value, `processMetric` sends exactly one sample: descriptor
`extfilter_fragments_total`, label values `[core, "4"]` for `ipv4_fragments` and
`[core, "6"]` for `ipv6_fragments`, that value. -/
theorem processMetric_fragments (statsPath metric id core name : String)
    (rest : List String) (value : V)
    (h : Split metric '.' = "worker" :: id :: core :: name :: rest)
    (hname : name = "ipv4_fragments" ∨ name = "ipv6_fragments")
    (hcore : ValidString core = true) :
    processMetric (newExtfilterCollector statsPath) metric value =
      { sent := [{ desc := (newExtfilterCollector statsPath).workerFragments,
                   valueType := ValueType.CounterValue, value := value,
                   labelValues := [core, if name = "ipv4_fragments" then "4" else "6"] }],
        status := Status.returned } ∧
    (newExtfilterCollector statsPath).workerFragments.fqName = "extfilter_fragments_total" := by
  refine ⟨?_, rfl⟩
  rcases hname with rfl | rfl <;>
    simp [processMetric, h, sendConstMetric, newExtfilterCollector, NewDesc, hcore,
      ValidString_ip_version.1, ValidString_ip_version.2]

/-- Witness for C10: the key `worker.1.2.ipv4_fragments.extra` gives core `2`,
ip_version `4`. -/
theorem processMetric_fragments_witness :
    Split "worker.1.2.ipv4_fragments.extra" '.' =
      "worker" :: "1" :: "2" :: "ipv4_fragments" :: ["extra"] ∧
    ValidString "2" = true ∧
    (processMetric (newExtfilterCollector "stats") "worker.1.2.ipv4_fragments.extra" (8 : Nat) =
      { sent := [{ desc := (newExtfilterCollector "stats").workerFragments,
                   valueType := ValueType.CounterValue, value := 8,
                   labelValues :=
                     ["2", if "ipv4_fragments" = "ipv4_fragments" then "4" else "6"] }],
        status := Status.returned } ∧
     (newExtfilterCollector "stats").workerFragments.fqName = "extfilter_fragments_total") ∧
    processMetric (newExtfilterCollector "stats") "worker.1.2.ipv4_fragments.extra" (8 : Nat) =
      { sent := [{ desc := NewDesc "extfilter_fragments_total"
                             "Total fragments recieved by the worker" ["core", "ip_version"],
                   valueType := ValueType.CounterValue, value := 8,
                   labelValues := ["2", "4"] }],
        status := Status.returned } :=
  ⟨by decide, by decide,
   processMetric_fragments "stats" "worker.1.2.ipv4_fragments.extra" "1" "2" "ipv4_fragments"
     ["extra"] 8 (by decide) (Or.inl rfl) (by decide),
   by decide⟩

/-- C11 (counterexample): the key `worker.0.\x80.ipv4_short_packets` has the segments
of the claim, but its core is the byte `0x80`, a continuation byte on its own,
which is not valid UTF-8: `MustNewConstMetric` panics and no sample is sent. -/
theorem processMetric_short_packets_counterexample :
    isByteString "worker.0.\x80.ipv4_short_packets" ∧
    Split "worker.0.\x80.ipv4_short_packets" '.' =
      "worker" :: "0" :: "\x80" :: "ipv4_short_packets" :: [] ∧
    processMetric (newExtfilterCollector "stats") "worker.0.\x80.ipv4_short_packets" (1 : Nat) =
      { sent := [], status := Status.invalidLabelValue } := by
  decide

/-- C11 (amended): for every worker key with at least 4 segments whose segment 3
is `ipv4_short_packets` and whose core is valid UTF-8, and every value,
`processMetric` sends exactly one sample: descriptor `extfilter_short_packets`,
label values `[core, "4"]`, that value. -/
theorem processMetric_short_packets (statsPath metric id core : String) (rest : List String)
    (value : V) (h : Split metric '.' = "worker" :: id :: core :: "ipv4_short_packets" :: rest)
    (hcore : ValidString core = true) :
    processMetric (newExtfilterCollector statsPath) metric value =
      { sent := [{ desc := (newExtfilterCollector statsPath).workerShortPackets,
                   valueType := ValueType.CounterValue, value := value,
                   labelValues := [core, "4"] }],
        status := Status.returned } ∧
    (newExtfilterCollector statsPath).workerShortPackets.fqName = "extfilter_short_packets" := by
  refine ⟨?_, rfl⟩
  simp [processMetric, h, sendConstMetric, newExtfilterCollector, NewDesc, hcore,
    ValidString_ip_version.1]

/-- Witness for C11: the key `worker.0.3.ipv4_short_packets` with value 11. -/
theorem processMetric_short_packets_witness :
    Split "worker.0.3.ipv4_short_packets" '.' =
      "worker" :: "0" :: "3" :: "ipv4_short_packets" :: [] ∧
    ValidString "3" = true ∧
    (processMetric (newExtfilterCollector "stats") "worker.0.3.ipv4_short_packets" (11 : Nat) =
      { sent := [{ desc := (newExtfilterCollector "stats").workerShortPackets,
                   valueType := ValueType.CounterValue, value := 11,
                   labelValues := ["3", "4"] }],
        status := Status.returned } ∧
     (newExtfilterCollector "stats").workerShortPackets.fqName = "extfilter_short_packets") ∧
    (newExtfilterCollector "stats").workerShortPackets =
      NewDesc "extfilter_short_packets" "Total short packets processed by the worker"
        ["core", "ip_version"] :=
  ⟨by decide, by decide,
   processMetric_short_packets "stats" "worker.0.3.ipv4_short_packets" "0" "3" [] 11
     (by decide) (by decide),
   by decide⟩

/-- C12 (counterexample): the key `worker.0.\xfe.total_bytes` has the segments of the
claim, but its core is the byte `0xFE`, which is not valid UTF-8:
`MustNewConstMetric` panics and no sample is sent. -/
theorem processMetric_total_bytes_counterexample :
    isByteString "worker.0.\xfe.total_bytes" ∧
    Split "worker.0.\xfe.total_bytes" '.' =
      "worker" :: "0" :: "\xfe" :: "total_bytes" :: [] ∧
    processMetric (newExtfilterCollector "stats") "worker.0.\xfe.total_bytes" (1 : Nat) =
      { sent := [], status := Status.invalidLabelValue } := by
  decide

/-- C12 (amended): for every worker key with at least 4 segments whose segment 3
is `total_bytes` and whose core is valid UTF-8, and every value, `processMetric`
sends exactly one sample: descriptor `extfilter_bytes_total`, label values
`[core]`, that value. -/
theorem processMetric_total_bytes (statsPath metric id core : String) (rest : List String)
    (value : V) (h : Split metric '.' = "worker" :: id :: core :: "total_bytes" :: rest)
    (hcore : ValidString core = true) :
    processMetric (newExtfilterCollector statsPath) metric value =
      { sent := [{ desc := (newExtfilterCollector statsPath).workerBytes,
                   valueType := ValueType.CounterValue, value := value,
                   labelValues := [core] }],
        status := Status.returned } ∧
    (newExtfilterCollector statsPath).workerBytes.fqName = "extfilter_bytes_total" := by
  refine ⟨?_, rfl⟩
  simp [processMetric, h, sendConstMetric, newExtfilterCollector, NewDesc, hcore]

/-- Witness for C12: the key `worker.0.3.total_bytes` with value 1500. -/
theorem processMetric_total_bytes_witness :
    Split "worker.0.3.total_bytes" '.' = "worker" :: "0" :: "3" :: "total_bytes" :: [] ∧
    ValidString "3" = true ∧
    (processMetric (newExtfilterCollector "stats") "worker.0.3.total_bytes" (1500 : Nat) =
      { sent := [{ desc := (newExtfilterCollector "stats").workerBytes,
                   valueType := ValueType.CounterValue, value := 1500,
                   labelValues := ["3"] }],
        status := Status.returned } ∧
     (newExtfilterCollector "stats").workerBytes.fqName = "extfilter_bytes_total") ∧
    (newExtfilterCollector "stats").workerBytes =
      NewDesc "extfilter_bytes_total" "Total bytes processed by the worker" ["core"] :=
  ⟨by decide, by decide,
   processMetric_total_bytes "stats" "worker.0.3.total_bytes" "0" "3" [] 1500 (by decide)
     (by decide),
   by decide⟩

/-- C13: for every key with first segment `allports` and at least 2 segments, and
every value: when segment 1 is `received_packets`, `missed_packets`, `ierrors`
or `rx_nombuf`, `processMetric` sends exactly one sample with no label values
and that value, with descriptor `extfilter_packets_received_total`,
`extfilter_packets_missed_total`, `extfilter_input_errors_total` or
`extfilter_rx_no_buffer_total` respectively; for any other segment 1 it returns
normally without a sample. -/
theorem processMetric_allports (statsPath metric name : String) (rest : List String)
    (value : V) (h : Split metric '.' = "allports" :: name :: rest) :
    (name = "received_packets" →
      processMetric (newExtfilterCollector statsPath) metric value =
        { sent := [{ desc := NewDesc "extfilter_packets_received_total"
                               "Total packets received on all ports" [],
                     valueType := ValueType.CounterValue, value := value, labelValues := [] }],
          status := Status.returned }) ∧
    (name = "missed_packets" →
      processMetric (newExtfilterCollector statsPath) metric value =
        { sent := [{ desc := NewDesc "extfilter_packets_missed_total"
                               "Total packets missed on all ports" [],
                     valueType := ValueType.CounterValue, value := value, labelValues := [] }],
          status := Status.returned }) ∧
    (name = "ierrors" →
      processMetric (newExtfilterCollector statsPath) metric value =
        { sent := [{ desc := NewDesc "extfilter_input_errors_total"
                               "Total input errors encountered on all ports" [],
                     valueType := ValueType.CounterValue, value := value, labelValues := [] }],
          status := Status.returned }) ∧
    (name = "rx_nombuf" →
      processMetric (newExtfilterCollector statsPath) metric value =
        { sent := [{ desc := NewDesc "extfilter_rx_no_buffer_total"
                               "Total RX buffer errors encountered on all ports" [],
                     valueType := ValueType.CounterValue, value := value, labelValues := [] }],
          status := Status.returned }) ∧
    (name ∉ ["received_packets", "missed_packets", "ierrors", "rx_nombuf"] →
      processMetric (newExtfilterCollector statsPath) metric value =
        { sent := [], status := Status.returned }) := by
  refine ⟨?_, ?_, ?_, ?_, ?_⟩
  · rintro rfl
    simp [processMetric, h, sendConstMetric, newExtfilterCollector, NewDesc, metricsPrefix]
  · rintro rfl
    simp [processMetric, h, sendConstMetric, newExtfilterCollector, NewDesc, metricsPrefix]
  · rintro rfl
    simp [processMetric, h, sendConstMetric, newExtfilterCollector, NewDesc, metricsPrefix]
  · rintro rfl
    simp [processMetric, h, sendConstMetric, newExtfilterCollector, NewDesc, metricsPrefix]
  · intro hname
    simp only [List.mem_cons, List.mem_singleton, List.not_mem_nil, or_false, not_or] at hname
    simp [processMetric, h, skip, hname]

/-- Witness for C13: the line `allports.received_packets=1000` gives one sample
without labels and with value 1000; `allports.bogus` gives none. -/
theorem processMetric_allports_witness :
    Split "allports.received_packets" '.' = "allports" :: "received_packets" :: [] ∧
    processMetric (newExtfilterCollector "stats") "allports.received_packets" (1000 : Nat) =
      { sent := [{ desc := NewDesc "extfilter_packets_received_total"
                             "Total packets received on all ports" [],
                   valueType := ValueType.CounterValue, value := 1000, labelValues := [] }],
        status := Status.returned } ∧
    Collect parseDigits (newExtfilterCollector "stats")
        (some ["allports.received_packets=1000"]) =
      { sent := [{ desc := (newExtfilterCollector "stats").receivedPackets,
                   valueType := ValueType.CounterValue, value := 1000, labelValues := [] }],
        status := Status.returned } ∧
    processMetric (newExtfilterCollector "stats") "allports.bogus" (1 : Nat) =
      { sent := [], status := Status.returned } :=
  ⟨by decide,
   (processMetric_allports "stats" "allports.received_packets" "received_packets" [] 1000
     (by decide)).1 rfl,
   by decide,
   (processMetric_allports "stats" "allports.bogus" "bogus" [] 1 (by decide)).2.2.2.2
     (by decide)⟩

/-- C14: for every key whose first segment is `allworkers`, the bare key
`allworkers` included, and every value, `processMetric` returns normally and
sends no sample, for any collector. -/
theorem processMetric_allworkers (collector : extfilterCollector) (metric : String)
    (value : V) (h : (Split metric '.')[0]? = some "allworkers") :
    processMetric collector metric value = { sent := [], status := Status.returned } := by
  simp [processMetric, h, skip]

/-- Witness for C14: the bare key `allworkers` and the key `allworkers.total_packets`. -/
theorem processMetric_allworkers_witness :
    (Split "allworkers" '.')[0]? = some "allworkers" ∧
    processMetric (newExtfilterCollector "stats") "allworkers" (1 : Nat) =
      { sent := [], status := Status.returned } ∧
    processMetric (newExtfilterCollector "stats") "allworkers.total_packets" (1 : Nat) =
      { sent := [], status := Status.returned } :=
  ⟨by decide,
   processMetric_allworkers (newExtfilterCollector "stats") "allworkers" 1 (by decide),
   processMetric_allworkers (newExtfilterCollector "stats") "allworkers.total_packets" 1
     (by decide)⟩

/-- C15: for every line that contains at least one `=`, the key returned by
`parseMetric` is exactly the part of the line before the first `=`: it contains
no `=`, and the key followed by `=` is a prefix of the line. -/
theorem parseMetric_key_before_first_eq (line : String) (h : '=' ∈ line.data) :
    ∃ key valueStr, parseMetric line = some (key, valueStr) ∧
      '=' ∉ key.data ∧ key.data ++ ['='] <+: line.data := by
  refine ⟨_, _, parseMetric_of_mem line h, ?_, takeWhile_ne_append_sep_isPrefix '=' _ h⟩
  intro hmem
  have := List.mem_takeWhile_imp hmem
  simp at this

/-- Witness for C15: the line `k=1=2`, whose key is `k`. -/
theorem parseMetric_key_before_first_eq_witness :
    '=' ∈ "k=1=2".data ∧
    (∃ key valueStr, parseMetric "k=1=2" = some (key, valueStr) ∧
      '=' ∉ key.data ∧ key.data ++ ['='] <+: "k=1=2".data) ∧
    (parseMetric "k=1=2").map Prod.fst = some "k" :=
  ⟨by decide, parseMetric_key_before_first_eq "k=1=2" (by decide), by decide⟩

/-- C16 (counterexample): a line of 65536 spaces inserted before
`allports.ierrors=5` is white space only, but it is too long for the scanner:
`Collect` stops there and the sample of the next line is lost. -/
theorem Collect_long_blank_line_counterexample :
    (∀ c ∈ (String.mk (List.replicate 65536 ' ')).data, c = ' ') ∧
    Collect parseDigits (newExtfilterCollector "stats")
        (some ([] ++ [String.mk (List.replicate 65536 ' ')] ++ ["allports.ierrors=5"])) =
      { sent := [], status := Status.returned } ∧
    Collect parseDigits (newExtfilterCollector "stats") (some ([] ++ ["allports.ierrors=5"])) =
      { sent := [{ desc := (newExtfilterCollector "stats").inputErrors,
                   valueType := ValueType.CounterValue, value := 5, labelValues := [] }],
        status := Status.returned } := by
  refine ⟨fun c hc => List.eq_of_mem_replicate hc, ?_, by decide⟩
  have hlen : MaxScanTokenSize ≤ (String.mk (List.replicate 65536 ' ')).length := by
    show MaxScanTokenSize ≤ (List.replicate 65536 ' ').length
    rw [List.length_replicate]
    decide
  simp only [Collect, List.nil_append, List.singleton_append]
  rw [collectLines_too_long parseDigits _ _ _ hlen]
  rfl

/-- C16 (amended): blank lines and surrounding white space are ignored on lines
shorter than `MaxScanTokenSize` (65536 bytes). Inserting anywhere in the file a
line made only of white-space runes, and adding leading and trailing white-space
runes to any line, both leave the outcome of `Collect` unchanged, the same
samples in the same order and the same ending, when the new line is shorter than
`MaxScanTokenSize`. White space is any sequence of the UTF-8 encodings of the
runes of `unicode.IsSpace`. -/
theorem Collect_ignores_blank_and_padding (parseFloat : String → Option V)
    (collector : extfilterCollector) (l1 l2 : List String) (line : String)
    (blank pre post : List (List Char))
    (hblank : ∀ e ∈ blank, e ∈ spaceRunes)
    (hpre : ∀ e ∈ pre, e ∈ spaceRunes) (hpost : ∀ e ∈ post, e ∈ spaceRunes)
    (hblen : (String.mk blank.flatten).length < MaxScanTokenSize)
    (hplen : (String.mk (pre.flatten ++ line.data ++ post.flatten)).length <
      MaxScanTokenSize) :
    Collect parseFloat collector (some (l1 ++ [String.mk blank.flatten] ++ l2)) =
      Collect parseFloat collector (some (l1 ++ l2)) ∧
    Collect parseFloat collector
        (some (l1 ++ [String.mk (pre.flatten ++ line.data ++ post.flatten)] ++ l2)) =
      Collect parseFloat collector (some (l1 ++ [line] ++ l2)) := by
  have hline : line.length < MaxScanTokenSize := by
    have h1 : (String.mk (pre.flatten ++ line.data ++ post.flatten)).length =
        (pre.flatten ++ line.data ++ post.flatten).length := rfl
    have h2 : line.length = line.data.length := rfl
    rw [h1, List.length_append, List.length_append] at hplen
    omega
  simp only [Collect]
  constructor
  · rw [List.append_assoc l1 [String.mk blank.flatten] l2]
    exact collectLines_append_congr parseFloat collector l1 _ l2
      (collectLines_blank parseFloat collector _ l2 hblen (TrimSpace_of_spaces blank hblank))
  · rw [List.append_assoc l1 [String.mk (pre.flatten ++ line.data ++ post.flatten)] l2,
      List.append_assoc l1 [line] l2]
    exact collectLines_append_congr parseFloat collector l1 _ _
      (collectLines_congr_head parseFloat collector _ line l2 hplen hline
        (TrimSpace_padded line pre post hpre hpost))

/-- Witness for C16: between `worker.0.3.total_bytes=9` and `allports.ierrors=5`, a
line of a space, a tab and a no-break space is inserted, and the line
`allports.missed_packets=2` is padded with white space. -/
theorem Collect_ignores_blank_and_padding_witness :
    (∀ e ∈ [[' '], ['\t'], ['\xc2', '\xa0']], e ∈ spaceRunes) ∧
    (∀ e ∈ [[' '], ['\t']], e ∈ spaceRunes) ∧
    (∀ e ∈ [['\xe2', '\x80', '\xa8'], ['\r'], [' ']], e ∈ spaceRunes) ∧
    (String.mk [[' '], ['\t'], ['\xc2', '\xa0']].flatten).length < MaxScanTokenSize ∧
    (String.mk ([[' '], ['\t']].flatten ++ "allports.missed_packets=2".data ++
      [['\xe2', '\x80', '\xa8'], ['\r'], [' ']].flatten)).length < MaxScanTokenSize ∧
    (Collect parseDigits (newExtfilterCollector "stats")
        (some (["worker.0.3.total_bytes=9"] ++
          [String.mk [[' '], ['\t'], ['\xc2', '\xa0']].flatten] ++ ["allports.ierrors=5"])) =
      Collect parseDigits (newExtfilterCollector "stats")
        (some (["worker.0.3.total_bytes=9"] ++ ["allports.ierrors=5"])) ∧
     Collect parseDigits (newExtfilterCollector "stats")
        (some (["worker.0.3.total_bytes=9"] ++
          [String.mk ([[' '], ['\t']].flatten ++ "allports.missed_packets=2".data ++
            [['\xe2', '\x80', '\xa8'], ['\r'], [' ']].flatten)] ++
          ["allports.ierrors=5"])) =
      Collect parseDigits (newExtfilterCollector "stats")
        (some (["worker.0.3.total_bytes=9"] ++ ["allports.missed_packets=2"] ++
          ["allports.ierrors=5"]))) ∧
    (Collect parseDigits (newExtfilterCollector "stats")
        (some ["worker.0.3.total_bytes=9", " \t\xc2\xa0",
          " \tallports.missed_packets=2\xe2\x80\xa8\r ",
          "allports.ierrors=5"])).sent.map
          (fun m => (m.desc.fqName, m.labelValues, m.value)) =
      [("extfilter_bytes_total", ["3"], 9), ("extfilter_packets_missed_total", [], 2),
       ("extfilter_input_errors_total", [], 5)] :=
  ⟨by decide, by decide, by decide, by decide, by decide,
   Collect_ignores_blank_and_padding parseDigits (newExtfilterCollector "stats")
     ["worker.0.3.total_bytes=9"] ["allports.ierrors=5"] "allports.missed_packets=2"
     [[' '], ['\t'], ['\xc2', '\xa0']] [[' '], ['\t']]
     [['\xe2', '\x80', '\xa8'], ['\r'], [' ']]
     (by decide) (by decide) (by decide) (by decide) (by decide),
   by decide⟩

/-- C17 (defect of the code): the lines are not processed independently when one
of them makes the scrape panic. While `Collect` on `l1` returns normally and
every line of `l1` is shorter than `MaxScanTokenSize`, the outcome on `l1 ++ l2`
is the samples of `l1` followed by those of `l2`, with the ending of `l2`; but
when `Collect` on `l1` ends in a panic, the outcome on `l1 ++ l2` is that of `l1`
alone and no line of `l2` is read; so is it when a line of `l1` is too long for
the scanner. -/
theorem Collect_append_stops_at_panic (parseFloat : String → Option V)
    (collector : extfilterCollector) (l1 l2 : List String) :
    ((∀ t ∈ l1, t.length < MaxScanTokenSize) →
      (Collect parseFloat collector (some l1)).status = Status.returned →
      Collect parseFloat collector (some (l1 ++ l2)) =
        { sent := (Collect parseFloat collector (some l1)).sent ++
                  (Collect parseFloat collector (some l2)).sent,
          status := (Collect parseFloat collector (some l2)).status }) ∧
    ((Collect parseFloat collector (some l1)).status ≠ Status.returned →
      Collect parseFloat collector (some (l1 ++ l2)) =
        Collect parseFloat collector (some l1)) ∧
    ((∃ t ∈ l1, MaxScanTokenSize ≤ t.length) →
      Collect parseFloat collector (some (l1 ++ l2)) =
        Collect parseFloat collector (some l1)) := by
  simp only [Collect]
  exact ⟨collectLines_append_of_returned parseFloat collector l1 l2,
    collectLines_append_of_stopped parseFloat collector l1 l2,
    collectLines_append_of_too_long parseFloat collector l1 l2⟩

/-- Witness for C17: with `l1` the line `bogus` and `l2` the line
`allports.ierrors=5`, `Collect` on `l1 ++ l2` sends nothing, while the samples of
`l1` followed by the samples of `l2` are the one sample of `l2`. -/
theorem Collect_append_stops_at_panic_witness :
    (Collect parseDigits (newExtfilterCollector "stats") (some ["bogus"])).status ≠
      Status.returned ∧
    Collect parseDigits (newExtfilterCollector "stats")
        (some (["bogus"] ++ ["allports.ierrors=5"])) =
      Collect parseDigits (newExtfilterCollector "stats") (some ["bogus"]) ∧
    (Collect parseDigits (newExtfilterCollector "stats")
        (some (["bogus"] ++ ["allports.ierrors=5"]))).sent = [] ∧
    (Collect parseDigits (newExtfilterCollector "stats") (some ["bogus"])).sent ++
      (Collect parseDigits (newExtfilterCollector "stats") (some ["allports.ierrors=5"])).sent =
      [{ desc := (newExtfilterCollector "stats").inputErrors,
         valueType := ValueType.CounterValue, value := 5, labelValues := [] }] :=
  ⟨by decide,
   (Collect_append_stops_at_panic parseDigits (newExtfilterCollector "stats") ["bogus"]
     ["allports.ierrors=5"]).2.1 (by decide),
   by decide, by decide⟩

/-- C18: `Describe` enumerates exactly ten descriptors, with pairwise distinct
names; their names and label names, in order, are those of the spec's table. -/
theorem Describe_ten_descriptors (statsPath : String) :
    (Describe (newExtfilterCollector statsPath)).map (fun d => (d.fqName, d.variableLabels)) =
      [("extfilter_worker_packets_total", ["core"]),
       ("extfilter_ip_packets_total", ["core", "ip_version"]),
       ("extfilter_bytes_total", ["core"]),
       ("extfilter_matches_total", ["core", "type"]),
       ("extfilter_fragments_total", ["core", "ip_version"]),
       ("extfilter_short_packets", ["core", "ip_version"]),
       ("extfilter_packets_received_total", []),
       ("extfilter_packets_missed_total", []),
       ("extfilter_input_errors_total", []),
       ("extfilter_rx_no_buffer_total", [])] ∧
    (Describe (newExtfilterCollector statsPath)).length = 10 ∧
    ((Describe (newExtfilterCollector statsPath)).map (fun d => d.fqName)).Nodup ∧
    ∀ d ∈ Describe (newExtfilterCollector statsPath),
      ∃ name, d.fqName = "extfilter_" ++ name := by
  have hnames : (Describe (newExtfilterCollector statsPath)).map (fun d => d.fqName) =
      ["extfilter_worker_packets_total", "extfilter_ip_packets_total", "extfilter_bytes_total",
       "extfilter_matches_total", "extfilter_fragments_total", "extfilter_short_packets",
       "extfilter_packets_received_total", "extfilter_packets_missed_total",
       "extfilter_input_errors_total", "extfilter_rx_no_buffer_total"] := rfl
  refine ⟨rfl, rfl, ?_, ?_⟩
  · rw [hnames]
    decide
  · intro d hd
    simp only [Describe, newExtfilterCollector, NewDesc, metricsPrefix, List.mem_cons,
      List.mem_singleton, List.not_mem_nil, or_false] at hd
    rcases hd with rfl | rfl | rfl | rfl | rfl | rfl | rfl | rfl | rfl | rfl <;>
      exact ⟨_, rfl⟩

/-- C19: every sample `processMetric` sends, for any key and value, uses one of
the ten descriptors `Describe` enumerates and carries exactly as many label
values as that descriptor has label names (1, 2, 1, 2, 2, 2, 0, 0, 0, 0 in the
order of `Describe`), and the call never ends in the label-count panic of
`MustNewConstMetric`. -/
theorem processMetric_label_count_matches (statsPath metric : String) (value : V) :
    (∀ m ∈ (processMetric (newExtfilterCollector statsPath) metric value).sent,
      m.desc ∈ Describe (newExtfilterCollector statsPath) ∧
      m.labelValues.length = m.desc.variableLabels.length) ∧
    (∀ want got, (processMetric (newExtfilterCollector statsPath) metric value).status ≠
      Status.inconsistentCardinality want got) ∧
    (Describe (newExtfilterCollector statsPath)).map (fun d => d.variableLabels.length) =
      [1, 2, 1, 2, 2, 2, 0, 0, 0, 0] := by
  have hv4 := ValidString_ip_version.1
  have hv6 := ValidString_ip_version.2
  obtain ⟨hm1, hm2, hm3, hm4, hm5⟩ := ValidString_match_type
  refine ⟨?_, ?_, rfl⟩
  all_goals
    simp only [processMetric]
    obtain ⟨p, ps, hps⟩ : ∃ p ps, Split metric '.' = p :: ps := ⟨_, _, rfl⟩
    rw [hps]
    by_cases hw : p = "worker"
    · subst hw
      rcases ps with _ | ⟨q, _ | ⟨r, _ | ⟨name, rest⟩⟩⟩
      · simp [outOfRange]
      · simp [outOfRange]
      · simp [outOfRange]
      · by_cases hm : name ∈ "ip_packets" :: reportedWorkerNames
        · simp only [reportedWorkerNames, List.mem_cons, List.mem_singleton, List.not_mem_nil,
            or_false] at hm
          by_cases hv : ValidString r = true <;>
          rcases hm with rfl | rfl | rfl | rfl | rfl | rfl | rfl | rfl | rfl | rfl | rfl | rfl
              | rfl <;>
            simp [sendConstMetric, newExtfilterCollector, NewDesc, skip, Describe, hv, hv4, hv6,
              hm1, hm2, hm3, hm4, hm5]
        · simp [reportedWorkerNames] at hm
          simp [skip, hm]
    · by_cases ha : p = "allports"
      · subst ha
        rcases ps with _ | ⟨name, rest⟩
        · simp [outOfRange]
        · by_cases hm : name ∈ reportedAllportsNames
          · simp only [reportedAllportsNames, List.mem_cons, List.mem_singleton,
              List.not_mem_nil, or_false] at hm
            rcases hm with rfl | rfl | rfl | rfl <;>
              simp [sendConstMetric, newExtfilterCollector, NewDesc, skip, Describe]
          · simp [reportedAllportsNames] at hm
            simp [skip, hm]
      · simp [hw, ha, skip]

/-- C20: the outcome of `processMetric` on a worker key with at least 4 segments
depends only on segments 2 and 3 and the value, and on an allports key with at
least 2 segments only on segment 1 and the value: two keys that agree there
have the same outcome, whatever the worker id and the further segments. -/
theorem processMetric_depends_on_named_segments (collector : extfilterCollector)
    (metric1 metric2 : String) (value : V)
    (h : (∃ id1 id2 core name rest1 rest2,
            Split metric1 '.' = "worker" :: id1 :: core :: name :: rest1 ∧
            Split metric2 '.' = "worker" :: id2 :: core :: name :: rest2) ∨
         (∃ name rest1 rest2,
            Split metric1 '.' = "allports" :: name :: rest1 ∧
            Split metric2 '.' = "allports" :: name :: rest2)) :
    processMetric collector metric1 value = processMetric collector metric2 value := by
  rcases h with ⟨id1, id2, core, name, rest1, rest2, h1, h2⟩ | ⟨name, rest1, rest2, h1, h2⟩
  · simp [processMetric, h1, h2]
  · simp [processMetric, h1, h2]

/-- Witness for C20: `worker.0.3.total_packets` and `worker.1.3.total_packets.x`
give the same sample. -/
theorem processMetric_depends_on_named_segments_witness :
    (Split "worker.0.3.total_packets" '.' = "worker" :: "0" :: "3" :: "total_packets" :: [] ∧
     Split "worker.1.3.total_packets.x" '.' =
       "worker" :: "1" :: "3" :: "total_packets" :: ["x"]) ∧
    processMetric (newExtfilterCollector "stats") "worker.0.3.total_packets" (42 : Nat) =
      processMetric (newExtfilterCollector "stats") "worker.1.3.total_packets.x" (42 : Nat) ∧
    processMetric (newExtfilterCollector "stats") "worker.1.3.total_packets.x" (42 : Nat) =
      { sent := [{ desc := (newExtfilterCollector "stats").workerPackets,
                   valueType := ValueType.CounterValue, value := 42, labelValues := ["3"] }],
        status := Status.returned } :=
  ⟨by decide,
   processMetric_depends_on_named_segments (newExtfilterCollector "stats")
     "worker.0.3.total_packets" "worker.1.3.total_packets.x" 42
     (Or.inl ⟨"0", "1", "3", "total_packets", [], ["x"], by decide, by decide⟩),
   by decide⟩

end Claims

end Extfilter
